import Mathlib

/-!
Verification development for the PawPal scheduling engine
(`pawpal_system.py`).  The Python data model and operations are shallowly
embedded: `datetime.time` becomes `PyTime` (hour/minute; the engine never
uses seconds), `datetime.datetime` becomes `PyDate` (proleptic Gregorian
year/month/day; the engine never inspects the time-of-day component of a
datetime), Python strings are Lean `String`s processed on their character
lists, fallible constructions (`time(h, m)` raising `ValueError`) return
`Option`, and `list.sort` (a stable sort) is modelled by insertion sort,
the canonical stable sort.
-/

namespace PawPal

/-- `datetime.time` restricted to the fields the engine uses.
`time(hour, minute)` validates `0 ≤ hour ≤ 23` and `0 ≤ minute ≤ 59`,
raising `ValueError` otherwise; construction is therefore `mkTime?`. -/
structure PyTime where
  hour : Nat
  minute : Nat
deriving DecidableEq, Repr

/-- `datetime.time(h, m)`: `some` iff the arguments are in range. -/
def mkTime? (h m : Nat) : Option PyTime :=
  if h ≤ 23 ∧ m ≤ 59 then some ⟨h, m⟩ else none

/-- Python compares `time` objects lexicographically on (hour, minute). -/
def timeLe (a b : PyTime) : Bool :=
  a.hour < b.hour || (a.hour == b.hour && a.minute ≤ b.minute)

/-- Strict lexicographic comparison of `time` objects. -/
def timeLt (a b : PyTime) : Bool :=
  a.hour < b.hour || (a.hour == b.hour && a.minute < b.minute)

/-- Proleptic Gregorian calendar date, modelling the date component of
`datetime.datetime` (the engine never reads hours/minutes of a datetime). -/
structure PyDate where
  year : Nat
  month : Nat
  day : Nat
deriving DecidableEq, Repr

/-- Gregorian leap-year rule (as in Python's `datetime`). -/
def isLeap (y : Nat) : Bool :=
  (y % 4 == 0 && y % 100 != 0) || (y % 400 == 0)

/-- Number of days in a month of a given year. -/
def daysInMonth (y m : Nat) : Nat :=
  if m = 2 then (if isLeap y then 29 else 28)
  else if m = 4 ∨ m = 6 ∨ m = 9 ∨ m = 11 then 30
  else 31

/-- Successor date in the Gregorian calendar. -/
def nextDay (d : PyDate) : PyDate :=
  if d.day < daysInMonth d.year d.month then ⟨d.year, d.month, d.day + 1⟩
  else if d.month < 12 then ⟨d.year, d.month + 1, 1⟩
  else ⟨d.year + 1, 1, 1⟩

/-- `d + timedelta(days := k)` for `k ≥ 0` (the engine only adds 1, 2 or
up to 7 days). -/
def addDays (d : PyDate) : Nat → PyDate
  | 0 => d
  | k + 1 => nextDay (addDays d k)

/-- Days in the years strictly before year `y` (proleptic Gregorian). -/
def daysBeforeYear (y : Nat) : Nat :=
  365 * (y - 1) + (y - 1) / 4 - (y - 1) / 100 + (y - 1) / 400

/-- Days in the months of year `y` strictly before month `m`. -/
def daysBeforeMonth (y m : Nat) : Nat :=
  (List.range m).foldl (fun acc i => if 1 ≤ i then acc + daysInMonth y i else acc) 0

/-- Gregorian ordinal of a date; `⟨1,1,1⟩` has ordinal 1, exactly as
`datetime.toordinal()`. -/
def toOrdinal (d : PyDate) : Nat :=
  daysBeforeYear d.year + daysBeforeMonth d.year d.month + d.day

/-- `datetime.weekday()`: 0 = Monday … 6 = Sunday.  Python computes this
from the proleptic Gregorian ordinal; 0001-01-01 is a Monday. -/
def weekday (d : PyDate) : Nat :=
  (toOrdinal d + 6) % 7

/-- The `Task` dataclass.  Field names follow the source; `priority` is
1–5 with 5 highest, `duration` is in minutes, `recurrence_days` uses
0 = Monday … 6 = Sunday. -/
structure Task where
  task_id : String
  pet_id : String
  name : String
  duration : Nat
  priority : Nat
  category : String
  is_medication : Bool := false
  preferred_time : String := "flexible"
  is_recurring : Bool := false
  recurrence_pattern : String := "daily"
  recurrence_days : List Nat := []
  next_due_date : Option PyDate := none
deriving DecidableEq, Repr

/-- `Task.should_occur_on_date`. -/
def Task.should_occur_on_date (t : Task) (date : PyDate) : Bool :=
  if !t.is_recurring then true
  else if t.recurrence_pattern == "daily" then true
  else if t.recurrence_pattern == "weekly" then
    t.recurrence_days.contains (weekday date)
  else if t.recurrence_pattern == "every_other_day" then
    t.recurrence_days.contains (weekday date)
  else true

/-- The `for days_offset in range(1, 8): … break` search in
`calculate_next_due_date`: the first offset in 1..7 whose weekday matches,
with `days_ahead` left at its initial value 7 when none does. -/
def weeklyDaysAhead (t : Task) (current_date : PyDate) : Nat :=
  match (List.range' 1 7).find?
      (fun off => t.recurrence_days.contains (weekday (addDays current_date off))) with
  | some off => off
  | none => 7

/-- `Task.calculate_next_due_date`. -/
def Task.calculate_next_due_date (t : Task) (current_date : PyDate) : Option PyDate :=
  if !t.is_recurring then none
  else if t.recurrence_pattern == "daily" then some (addDays current_date 1)
  else if t.recurrence_pattern == "weekly" then
    some (addDays current_date (weeklyDaysAhead t current_date))
  else if t.recurrence_pattern == "every_other_day" then some (addDays current_date 2)
  else none

-- sanity: 2026-02-15 is a Sunday, 2026-02-27 a Friday (as the repo's tests assert)
example : weekday ⟨2026, 2, 15⟩ = 6 := by decide
example : weekday ⟨2026, 2, 27⟩ = 4 := by decide
example : addDays ⟨2026, 2, 28⟩ 1 = ⟨2026, 3, 1⟩ := by decide
example : addDays ⟨2025, 12, 31⟩ 1 = ⟨2026, 1, 1⟩ := by decide
example : addDays ⟨2026, 2, 27⟩ 2 = ⟨2026, 3, 1⟩ := by decide

/-- The `Pet` dataclass (fields the engine consumes). -/
structure Pet where
  pet_id : String
  name : String
  species : String
  age : Nat
  health_info : String
  task_priorities : List (String × Nat) := []
  user_preferences : List (String × String) := []
  tasks : List Task := []
deriving DecidableEq, Repr

/-- The `User` dataclass (fields the engine consumes). -/
structure User where
  username : String
  password : String
  availability : List String := []
  preferences : List (String × String) := []
  pets : List Pet := []
deriving DecidableEq, Repr

/-- The `ScheduledTask` dataclass. -/
structure ScheduledTask where
  task_id : String
  start_time : PyTime
  end_time : PyTime
  pet_id : String
  task : Option Task := none
  status : String := "pending"
  scheduled_date : Option PyDate := none
deriving DecidableEq, Repr

/-- `ScheduledTask.overlaps_with`:
`self.start_time < other.end_time and self.end_time > other.start_time`. -/
def ScheduledTask.overlaps_with (a b : ScheduledTask) : Bool :=
  timeLt a.start_time b.end_time && timeLt b.start_time a.end_time

/-- The `DailySchedule` dataclass. -/
structure DailySchedule where
  user_id : String
  date : PyDate
  scheduled_tasks : List ScheduledTask := []
  explanation : String := ""
  conflicts : List (ScheduledTask × ScheduledTask) := []
deriving DecidableEq, Repr

/-- `DailySchedule.has_conflicts`. -/
def DailySchedule.has_conflicts (s : DailySchedule) : Bool :=
  s.conflicts.length > 0

/-- `time_order.get(t.preferred_time, 1)`: the fixed ordering
morning(0) < flexible(1) < evening(2), defaulting to 1 for any other
string, exactly as `dict.get` with default. -/
def timeOrder (s : String) : Nat :=
  if s == "morning" then 0
  else if s == "flexible" then 1
  else if s == "evening" then 2
  else 1

/-- Sort relation of `medications.sort(key=lambda t: t.priority, reverse=True)`:
a stable sort placing higher priority first. -/
def medLe (t u : Task) : Prop := u.priority ≤ t.priority

/-- Sort relation of
`non_medications.sort(key=lambda t: (-t.priority, time_order.get(t.preferred_time, 1)))`:
priority descending, then preferred-time order ascending. -/
def nonMedLe (t u : Task) : Prop :=
  u.priority < t.priority ∨
    (t.priority = u.priority ∧ timeOrder t.preferred_time ≤ timeOrder u.preferred_time)

instance : DecidableRel medLe := fun t u => by unfold medLe; infer_instance

instance : DecidableRel nonMedLe := fun t u => by unfold nonMedLe; infer_instance

instance : IsTotal Task medLe :=
  ⟨fun t u => by unfold medLe; omega⟩

instance : IsTrans Task medLe :=
  ⟨fun a b c hab hbc => by unfold medLe at *; omega⟩

instance : IsTotal Task nonMedLe :=
  ⟨fun t u => by unfold nonMedLe; omega⟩

instance : IsTrans Task nonMedLe :=
  ⟨fun a b c hab hbc => by unfold nonMedLe at *; omega⟩

/-- The sorted medication segment of `_prioritize_tasks` (Python `list.sort`
is stable; insertion sort is the canonical stable sort). -/
def prioritizeMed (tasks : List Task) : List Task :=
  List.insertionSort medLe (tasks.filter (·.is_medication))

/-- The sorted non-medication segment of `_prioritize_tasks`. -/
def prioritizeNonMed (tasks : List Task) : List Task :=
  List.insertionSort nonMedLe (tasks.filter (fun t => !t.is_medication))

/-- `TaskScheduler._prioritize_tasks`: `medications + non_medications`. -/
def prioritize_tasks (tasks : List Task) : List Task :=
  prioritizeMed tasks ++ prioritizeNonMed tasks

/-- Sort relation of `sorted(…, key=lambda t: (t.start_time.hour, t.start_time.minute))`. -/
def byStartLe (a b : ScheduledTask) : Prop :=
  a.start_time.hour < b.start_time.hour ∨
    (a.start_time.hour = b.start_time.hour ∧ a.start_time.minute ≤ b.start_time.minute)

instance : DecidableRel byStartLe := fun a b => by unfold byStartLe; infer_instance

instance : IsTotal ScheduledTask byStartLe :=
  ⟨fun a b => by unfold byStartLe; omega⟩

instance : IsTrans ScheduledTask byStartLe :=
  ⟨fun a b c hab hbc => by unfold byStartLe at *; omega⟩

/-- The end-time computation of `_fit_tasks_in_schedule`: duration split
into hours/minutes, added to the cursor with a single minute→hour carry,
then validated by `time(end_hour, end_minute)` (which raises — here
`none` — when the hour leaves 0..23). -/
def addMinutes? (t : PyTime) (dur : Nat) : Option PyTime :=
  let hours := dur / 60
  let minutes := dur % 60
  let endHour := t.hour + hours
  let endMinute := t.minute + minutes
  if endMinute ≥ 60 then mkTime? (endHour + 1) (endMinute - 60)
  else mkTime? endHour endMinute

/-- One `ScheduledTask` as built inside the placement loop. -/
def mkScheduled (t : Task) (start stop : PyTime) (date : PyDate) : ScheduledTask :=
  { task_id := t.task_id, start_time := start, end_time := stop,
    pet_id := t.pet_id, task := some t, status := "pending",
    scheduled_date := some date }

/-- The placement loop of `_fit_tasks_in_schedule`: a single cursor,
each task accepted iff its candidate end fits the window or the task is
medical; accepted tasks advance the cursor, rejected ones leave it.
`none` models the `ValueError` from `time()` on hour overflow, which in
the source aborts the whole call. -/
def fitGo (date : PyDate) (availEnd : PyTime) : List Task → PyTime → Option (List ScheduledTask)
  | [], _ => some []
  | t :: rest, cur =>
    match addMinutes? cur t.duration with
    | none => none
    | some taskEnd =>
      if timeLe taskEnd availEnd || t.is_medication then
        (fitGo date availEnd rest taskEnd).map (fun l => mkScheduled t cur taskEnd date :: l)
      else fitGo date availEnd rest cur

/-- `TaskScheduler._fit_tasks_in_schedule` given the parsed availability
window: run the placement loop from the window start, then re-sort the
result by (hour, minute) of the start time. -/
def fit_tasks_in_schedule (prioritized : List Task) (availStart availEnd : PyTime)
    (date : PyDate) : Option (List ScheduledTask) :=
  (fitGo date availEnd prioritized availStart).map (List.insertionSort byStartLe)

/-- `TaskScheduler._detect_conflicts`: all ordered position pairs `i < j`,
keeping those whose tasks overlap. -/
def detect_conflicts : List ScheduledTask → List (ScheduledTask × ScheduledTask)
  | [] => []
  | t :: rest =>
    (rest.filter (fun u => t.overlaps_with u)).map (fun u => (t, u)) ++ detect_conflicts rest

/-! ### String primitives

Python string operations used by the parser and message builders, modelled
on character lists.  `int(…)` is modelled on plain decimal numerals and
`strptime`'s `%H`/`%M` on 1–2 ASCII-digit fields, the forms the
availability grammar (`"HH:MM-HH:MM"` / bare-hour `"H-H"`) produces. -/

/-- `str.split(sep)` for a one-character separator: `"".split("-") = [""]`,
`"a-b-c".split("-") = ["a","b","c"]`. -/
def splitChar (c : Char) : List Char → List (List Char)
  | [] => [[]]
  | x :: xs =>
    if x = c then [] :: splitChar c xs
    else
      match splitChar c xs with
      | [] => [[x]]
      | h :: t => (x :: h) :: t

/-- Whitespace stripped by `str.strip()`. -/
def isSpaceChar (c : Char) : Bool :=
  c = ' ' || c = '\t' || c = '\n' || c = '\r' || c.toNat = 11 || c.toNat = 12

/-- `str.strip()`. -/
def pyStrip (l : List Char) : List Char :=
  ((l.dropWhile isSpaceChar).reverse.dropWhile isSpaceChar).reverse

/-- ASCII decimal digit test. -/
def isDigitChar (c : Char) : Bool :=
  48 ≤ c.toNat && c.toNat ≤ 57

/-- Value of an ASCII digit character. -/
def digitVal (c : Char) : Nat :=
  c.toNat - 48

/-- Character for decimal digit `n % 10`. -/
def digitChar (n : Nat) : Char :=
  Char.ofNat (48 + n % 10)

/-- Numeric value of a digit string. -/
def digitsVal (l : List Char) : Nat :=
  l.foldl (fun acc c => 10 * acc + digitVal c) 0

/-- `int(s)` on a stripped string, as used for bare-hour availability
entries: a nonempty run of decimal digits; anything else raises (`none`). -/
def pyIntNat? (l : List Char) : Option Nat :=
  if l ≠ [] ∧ l.all isDigitChar then some (digitsVal l) else none

/-- `datetime.strptime(s, "%H:%M").time()`: one or two digits for the
hour (0–23), a colon, one or two digits for the minute (0–59); anything
else raises (`none`). -/
def parseHM? (l : List Char) : Option PyTime :=
  match splitChar ':' l with
  | [hs, ms] =>
    if 1 ≤ hs.length ∧ hs.length ≤ 2 ∧ hs.all isDigitChar
        ∧ 1 ≤ ms.length ∧ ms.length ≤ 2 ∧ ms.all isDigitChar then
      mkTime? (digitsVal hs) (digitsVal ms)
    else none
  | _ => none

/-- One side of an availability entry: `strptime "%H:%M"` when it holds a
colon, otherwise `time(int(s), 0)`. -/
def parseTimeToken? (l : List Char) : Option PyTime :=
  if l.contains ':' then parseHM? l
  else (pyIntNat? l).bind fun h => mkTime? h 0

/-- The `try` block of `_parse_availability` on one availability string:
`some` when it produces a window, `none` when it falls through (no `"-"`)
or raises. -/
def parseAvailEntry? (s : String) : Option (PyTime × PyTime) :=
  if s.data.contains '-' then
    match splitChar '-' s.data with
    | p0 :: p1 :: _ =>
      match parseTimeToken? (pyStrip p0), parseTimeToken? (pyStrip p1) with
      | some a, some b => some (a, b)
      | _, _ => none
    | _ => none
  else none

/-- `TaskScheduler._parse_availability`: consult only the first entry;
missing, malformed or unparseable input falls back to the default
09:00–17:00 window. -/
def parse_availability (availability : List String) : PyTime × PyTime :=
  match availability with
  | [] => (⟨9, 0⟩, ⟨17, 0⟩)
  | s :: _ => (parseAvailEntry? s).getD (⟨9, 0⟩, ⟨17, 0⟩)

-- sanity checks against the Python parser's behaviour
example : parse_availability [] = (⟨9, 0⟩, ⟨17, 0⟩) := by decide
example : parse_availability ["9-17"] = (⟨9, 0⟩, ⟨17, 0⟩) := by decide
example : parse_availability ["9-12"] = (⟨9, 0⟩, ⟨12, 0⟩) := by decide
example : parse_availability ["08:30-16:45"] = (⟨8, 30⟩, ⟨16, 45⟩) := by decide
example : parse_availability ["banana"] = (⟨9, 0⟩, ⟨17, 0⟩) := by decide
example : parse_availability ["Mon-Fri: 9-5"] = (⟨9, 0⟩, ⟨17, 0⟩) := by decide
example : parse_availability ["25:00-26:00"] = (⟨9, 0⟩, ⟨17, 0⟩) := by decide

/-! ### Schedule queries, explanation and completion -/

/-- `strftime('%H:%M')` on a `time`: zero-padded hour and minute. -/
def fmtHM (t : PyTime) : String :=
  ⟨[digitChar (t.hour / 10), digitChar t.hour, ':',
    digitChar (t.minute / 10), digitChar t.minute]⟩

/-- `ScheduledTask.get_time_string`. -/
def ScheduledTask.get_time_string (st : ScheduledTask) : String :=
  fmtHM st.start_time ++ "-" ++ fmtHM st.end_time

/-- `DailySchedule.get_tasks_by_time`: stable sort by (hour, minute). -/
def DailySchedule.get_tasks_by_time (s : DailySchedule) : List ScheduledTask :=
  List.insertionSort byStartLe s.scheduled_tasks

/-- `DailySchedule.get_tasks_by_pet`. -/
def DailySchedule.get_tasks_by_pet (s : DailySchedule) (pet_id : String) : List ScheduledTask :=
  List.insertionSort byStartLe (s.scheduled_tasks.filter (fun t => t.pet_id == pet_id))

/-- `DailySchedule.get_tasks_by_status`. -/
def DailySchedule.get_tasks_by_status (s : DailySchedule) (status : String) : List ScheduledTask :=
  List.insertionSort byStartLe (s.scheduled_tasks.filter (fun t => t.status == status))

/-- `DailySchedule.get_tasks_in_time_range`. -/
def DailySchedule.get_tasks_in_time_range (s : DailySchedule) (start_time end_time : PyTime) :
    List ScheduledTask :=
  List.insertionSort byStartLe
    (s.scheduled_tasks.filter
      (fun t => timeLe start_time t.start_time && timeLe t.end_time end_time))

/-- `st.task.name` with the `if st.task else` guards the source applies
when it reads through the back-reference. -/
def stName (st : ScheduledTask) : String :=
  match st.task with
  | some t => t.name
  | none => ""

/-- `st.task.priority` read through the back-reference (the source only
reads it on placements built by the placer, which always carry a task). -/
def stPriority (st : ScheduledTask) : Nat :=
  match st.task with
  | some t => t.priority
  | none => 0

/-- `DailySchedule.get_conflict_summary`. -/
def DailySchedule.get_conflict_summary (s : DailySchedule) : String :=
  if s.conflicts = [] then "No conflicts detected."
  else
    "Found " ++ toString s.conflicts.length ++ " conflict(s):\n" ++
      String.join (s.conflicts.map (fun p =>
        "  • " ++ stName p.1 ++ " (" ++ p.1.get_time_string ++ ") overlaps with " ++
          stName p.2 ++ " (" ++ p.2.get_time_string ++ ")\n"))

/-- `TaskScheduler._generate_explanation`. -/
def generate_explanation (user : User) (schedule : DailySchedule) (all_tasks : List Task)
    (scheduled_tasks : List ScheduledTask) : String :=
  let scheduled_ids := scheduled_tasks.map (·.task_id)
  let unscheduled := all_tasks.filter (fun t => !scheduled_ids.contains t.task_id)
  let e1 := "Daily Schedule Generated:\n\n"
  let e2 :=
    if scheduled_tasks ≠ [] then
      e1 ++ "Scheduled Tasks (sorted by time):\n" ++
        String.join (schedule.get_tasks_by_time.map (fun st =>
          "  • " ++ stName st ++ " (" ++ st.pet_id ++ "): " ++ fmtHM st.start_time ++
            " - " ++ fmtHM st.end_time ++ " [Priority: " ++ toString (stPriority st) ++ "]\n"))
    else e1
  let e3 :=
    if unscheduled ≠ [] then
      e2 ++ "\nUnable to Schedule (insufficient time):\n" ++
        String.join (unscheduled.map (fun t =>
          "  • " ++ t.name ++ " (" ++ t.pet_id ++ ") - Duration: " ++ toString t.duration ++
            " min [Priority: " ++ toString t.priority ++ "]\n"))
    else e2
  let e4 := if schedule.has_conflicts then e3 ++ "\n" ++ schedule.get_conflict_summary else e3
  e4 ++ "\nBased on your availability: " ++ String.intercalate ", " user.availability

/-- The task-collection loop of `schedule_tasks`: every task of every
pet that occurs on the date, in pet order then task order. -/
def dayTasks (user : User) (date : PyDate) : List Task :=
  user.pets.flatMap (fun pet =>
    pet.tasks.filter (fun t => t.should_occur_on_date date))

/-- `TaskScheduler.schedule_tasks`: collect the day's occurring tasks
across pets, prioritize, place (`none` models the uncaught `ValueError`
on placement-time overflow), detect conflicts, build the explanation
(against the schedule that already carries its conflict list, as the
source does). -/
def schedule_tasks (user : User) (date : PyDate) : Option DailySchedule :=
  match fit_tasks_in_schedule (prioritize_tasks (dayTasks user date))
      (parse_availability user.availability).1 (parse_availability user.availability).2
      date with
  | none => none
  | some scheduled =>
    some { user_id := user.username, date := date, scheduled_tasks := scheduled,
           explanation := generate_explanation user
             { user_id := user.username, date := date, scheduled_tasks := scheduled,
               explanation := "", conflicts := detect_conflicts scheduled }
             (dayTasks user date) scheduled,
           conflicts := detect_conflicts scheduled }

/-- A single-quote character, used by the completion messages. -/
def sq : String := String.singleton (Char.ofNat 39)

/-- `strftime('%A, %B %d, %Y')`: weekday name, month name, zero-padded
day, year. -/
def strftimeLong (d : PyDate) : String :=
  (["Monday", "Tuesday", "Wednesday", "Thursday", "Friday", "Saturday",
    "Sunday"].getD (weekday d) "") ++ ", " ++
  (["January", "February", "March", "April", "May", "June", "July", "August",
    "September", "October", "November", "December"].getD (d.month - 1) "") ++ " " ++
  ⟨[digitChar (d.day / 10), digitChar d.day]⟩ ++ ", " ++ toString d.year

/-- `ScheduledTask.mark_complete`.  Python sets `status`, then — when a
recurring task is attached — computes and stores the next due date on
the referenced task and returns a message naming it; the embedding
returns the updated placement together with the message.
`current_date = None` falls back to `scheduled_date` and then to
`datetime.now()`, passed explicitly as `now`. -/
def ScheduledTask.mark_complete (st : ScheduledTask) (current_date : Option PyDate)
    (now : PyDate) : ScheduledTask × String :=
  match st.task with
  | some task =>
    if task.is_recurring then
      let cd := current_date.getD (st.scheduled_date.getD now)
      let next_due := task.calculate_next_due_date cd
      ({ st with
          status := "completed",
          task := some { task with next_due_date := next_due } },
       "✓ Completed " ++ sq ++ task.name ++ sq ++ ". Next due: " ++
        (match next_due with | some d => strftimeLong d | none => "N/A"))
    else ({ st with status := "completed" },
      "✓ Completed " ++ sq ++ task.name ++ sq ++ ".")
  | none => ({ st with status := "completed" },
      "✓ Completed " ++ sq ++ "Unknown task" ++ sq ++ ".")

/-- Marking the `i`-th placement of a schedule complete: the caller-side
view of `schedule.scheduled_tasks[i].mark_complete(…)` under value
semantics (`none` when the index is out of range, mirroring that no call
happens). -/
def markCompleteAt (sched : DailySchedule) (i : Nat) (current_date : Option PyDate)
    (now : PyDate) : DailySchedule × Option String :=
  match sched.scheduled_tasks[i]? with
  | none => (sched, none)
  | some st =>
    let r := st.mark_complete current_date now
    ({ sched with scheduled_tasks := sched.scheduled_tasks.set i r.1 }, some r.2)

/-! ### Persistence (`UserDataManager.save_user` / `load_user`)

The JSON file is modelled by records mirroring the dict structure
`save_user` builds; `json.dump` followed by `json.load` is the identity
on these value types (strings, integers, booleans, lists, string-keyed
dicts), so the file itself is elided.  Dates are still serialized and
re-parsed through their ISO form, exactly as the source does with
`isoformat`/`fromisoformat`. -/

/-- `isoformat()` of a stored date (the engine never gives its datetimes
a time-of-day component, which is not modelled). -/
def isoformat (d : PyDate) : String :=
  ⟨[digitChar (d.year / 1000), digitChar (d.year / 100), digitChar (d.year / 10),
    digitChar d.year, '-', digitChar (d.month / 10), digitChar d.month, '-',
    digitChar (d.day / 10), digitChar d.day]⟩

/-- `datetime.fromisoformat` on the date part: `YYYY-MM-DD`. -/
def fromIso? (s : String) : Option PyDate :=
  match s.data with
  | [y1, y2, y3, y4, s1, m1, m2, s2, d1, d2] =>
    if s1 = '-' ∧ s2 = '-' ∧ [y1, y2, y3, y4, m1, m2, d1, d2].all isDigitChar then
      some ⟨1000 * digitVal y1 + 100 * digitVal y2 + 10 * digitVal y3 + digitVal y4,
        10 * digitVal m1 + digitVal m2, 10 * digitVal d1 + digitVal d2⟩
    else none
  | _ => none

/-- One task entry of the JSON file written by `save_user`. -/
structure StoredTask where
  task_id : String
  pet_id : String
  name : String
  duration : Nat
  priority : Nat
  category : String
  is_medication : Bool
  preferred_time : String
  is_recurring : Bool
  recurrence_pattern : String
  recurrence_days : List Nat
  next_due_date : Option String
deriving DecidableEq, Repr

/-- One pet entry of the JSON file written by `save_user`. -/
structure StoredPet where
  pet_id : String
  name : String
  species : String
  age : Nat
  health_info : String
  task_priorities : List (String × Nat)
  user_preferences : List (String × String)
  tasks : List StoredTask
deriving DecidableEq, Repr

/-- The JSON file written by `save_user`. -/
structure StoredUser where
  username : String
  password : String
  availability : List String
  preferences : List (String × String)
  pets : List StoredPet
deriving DecidableEq, Repr

/-- The task dict `save_user` writes for one task. -/
def storeTask (task : Task) : StoredTask :=
  { task_id := task.task_id, pet_id := task.pet_id, name := task.name,
    duration := task.duration, priority := task.priority,
    category := task.category, is_medication := task.is_medication,
    preferred_time := task.preferred_time,
    is_recurring := task.is_recurring,
    recurrence_pattern := task.recurrence_pattern,
    recurrence_days := task.recurrence_days,
    next_due_date := task.next_due_date.map isoformat }

/-- The pet dict `save_user` writes for one pet. -/
def storePet (pet : Pet) : StoredPet :=
  { pet_id := pet.pet_id, name := pet.name, species := pet.species,
    age := pet.age, health_info := pet.health_info,
    task_priorities := pet.task_priorities,
    user_preferences := pet.user_preferences,
    tasks := pet.tasks.map storeTask }

/-- `UserDataManager.save_user`: the dict it serializes. -/
def save_user (user : User) : StoredUser :=
  { username := user.username
    password := user.password
    availability := user.availability
    preferences := user.preferences
    pets := user.pets.map storePet }

/-- `load_user`'s reconstruction of one task; `none` models the
`ValueError` `fromisoformat` raises on an unparseable stored date. -/
def loadTask? (td : StoredTask) : Option Task :=
  match td.next_due_date with
  | none =>
    some { task_id := td.task_id, pet_id := td.pet_id, name := td.name,
           duration := td.duration, priority := td.priority, category := td.category,
           is_medication := td.is_medication, preferred_time := td.preferred_time,
           is_recurring := td.is_recurring, recurrence_pattern := td.recurrence_pattern,
           recurrence_days := td.recurrence_days, next_due_date := none }
  | some s =>
    (fromIso? s).map fun d =>
      { task_id := td.task_id, pet_id := td.pet_id, name := td.name,
        duration := td.duration, priority := td.priority, category := td.category,
        is_medication := td.is_medication, preferred_time := td.preferred_time,
        is_recurring := td.is_recurring, recurrence_pattern := td.recurrence_pattern,
        recurrence_days := td.recurrence_days, next_due_date := some d }

/-- `load_user`'s reconstruction of one pet from its stored dict. -/
def loadPet? (pd : StoredPet) : Option Pet := do
  let tasks ← pd.tasks.mapM loadTask?
  pure { pet_id := pd.pet_id, name := pd.name, species := pd.species,
         age := pd.age, health_info := pd.health_info,
         task_priorities := pd.task_priorities,
         user_preferences := pd.user_preferences, tasks := tasks }

/-- `UserDataManager.load_user` applied to a stored record. -/
def load_user (data : StoredUser) : Option User := do
  let pets ← data.pets.mapM loadPet?
  pure { username := data.username, password := data.password,
         availability := data.availability, preferences := data.preferences,
         pets := pets }

/-! ### Helper lemmas -/

/-- `find?` over `range' s n`: the result is the least index in range
satisfying the predicate, and `none` means no index in range does. -/
theorem find?_range'_spec (p : Nat → Bool) (s : Nat) :
    ∀ n, (match (List.range' s n).find? p with
      | some x => p x = true ∧ s ≤ x ∧ x < s + n ∧ ∀ j, s ≤ j → j < x → p j = false
      | none => ∀ j, s ≤ j → j < s + n → p j = false) := by
  intro n
  induction n generalizing s with
  | zero => intro j h1 h2; omega
  | succ n ih =>
    show (match (List.find? p (s :: List.range' (s + 1) n)) with
      | some x => _ | none => _)
    rw [List.find?_cons]
    cases hp : p s with
    | true =>
      simp only
      exact ⟨hp, le_refl s, by omega, fun j h1 h2 => by omega⟩
    | false =>
      simp only
      have := ih (s + 1)
      cases hf : (List.range' (s + 1) n).find? p with
      | some x =>
        rw [hf] at this
        refine ⟨this.1, by omega, by omega, fun j h1 h2 => ?_⟩
        rcases Nat.eq_or_lt_of_le h1 with rfl | hlt
        · exact hp
        · exact this.2.2.2 j hlt h2
      | none =>
        rw [hf] at this
        intro j h1 h2
        rcases Nat.eq_or_lt_of_le h1 with rfl | hlt
        · exact hp
        · exact this j hlt (by omega)

/-! ### Claim C5 — occurrence check -/

/-- Claim C5: `should_occur_on_date` returns true unconditionally when the
task is not recurring; for `daily` it is always true; for `weekly` it is
the weekday-set membership test; and for `every_other_day` it uses the
identical weekday-set membership test as `weekly`. -/
theorem claim_C5_occurrence (t : Task) (d : PyDate) :
    (t.is_recurring = false → t.should_occur_on_date d = true) ∧
    (t.recurrence_pattern = "daily" → t.should_occur_on_date d = true) ∧
    (t.is_recurring = true → t.recurrence_pattern = "weekly" →
      t.should_occur_on_date d = t.recurrence_days.contains (weekday d)) ∧
    (t.is_recurring = true → t.recurrence_pattern = "every_other_day" →
      t.should_occur_on_date d = t.recurrence_days.contains (weekday d)) := by
  refine ⟨fun h => ?_, fun h => ?_, fun h1 h2 => ?_, fun h1 h2 => ?_⟩ <;>
    simp [Task.should_occur_on_date, *]

/-- Witness for C5 at concrete inputs: a weekly task with weekday set
{Mon} on Monday 2026-02-16 and on Sunday 2026-02-15, an
`every_other_day` task with the same set, and a non-recurring task. -/
theorem claim_C5_occurrence_witness :
    (Task.should_occur_on_date
        { task_id := "t1", pet_id := "p1", name := "w", duration := 30, priority := 2,
          category := "walk", is_recurring := true, recurrence_pattern := "weekly",
          recurrence_days := [0] } ⟨2026, 2, 16⟩
      = List.contains [0] (weekday ⟨2026, 2, 16⟩)) ∧
    (Task.should_occur_on_date
        { task_id := "t2", pet_id := "p1", name := "e", duration := 30, priority := 2,
          category := "walk", is_recurring := true, recurrence_pattern := "every_other_day",
          recurrence_days := [0] } ⟨2026, 2, 15⟩
      = List.contains [0] (weekday ⟨2026, 2, 15⟩)) ∧
    (Task.should_occur_on_date
        { task_id := "t3", pet_id := "p1", name := "n", duration := 30, priority := 2,
          category := "walk", is_recurring := false } ⟨2026, 2, 15⟩ = true) :=
  ⟨(claim_C5_occurrence _ _).2.2.1 rfl rfl,
   (claim_C5_occurrence _ _).2.2.2 rfl rfl,
   (claim_C5_occurrence _ _).1 rfl⟩

/-! ### Claim C4 — next-due-date arithmetic -/

/-- Claim C4: `calculate_next_due_date` returns completion + 1 day for
`daily`, completion + 2 days for `every_other_day`; for `weekly` it
returns completion + k days where k is the least offset in 1..7 whose
weekday lies in the recurrence-weekday set, and k = 7 when no offset in
1..7 matches; for a non-recurring task the result is `none` rather than
an error.  (`addDays` implements proleptic Gregorian day succession, so
the +1/+2 results are correct across month and year boundaries; see the
witness.) -/
theorem claim_C4_next_due_date (t : Task) (d : PyDate) :
    (t.is_recurring = true → t.recurrence_pattern = "daily" →
      t.calculate_next_due_date d = some (addDays d 1)) ∧
    (t.is_recurring = true → t.recurrence_pattern = "every_other_day" →
      t.calculate_next_due_date d = some (addDays d 2)) ∧
    (t.is_recurring = true → t.recurrence_pattern = "weekly" →
      ∃ k, t.calculate_next_due_date d = some (addDays d k) ∧ 1 ≤ k ∧ k ≤ 7 ∧
        ((t.recurrence_days.contains (weekday (addDays d k)) = true ∧
          ∀ j, 1 ≤ j → j < k → t.recurrence_days.contains (weekday (addDays d j)) = false) ∨
         (k = 7 ∧ ∀ j, 1 ≤ j → j ≤ 7 →
            t.recurrence_days.contains (weekday (addDays d j)) = false))) ∧
    (t.is_recurring = false → t.calculate_next_due_date d = none) := by
  refine ⟨fun h1 h2 => ?_, fun h1 h2 => ?_, fun h1 h2 => ?_, fun h => ?_⟩
  · simp [Task.calculate_next_due_date, h1, h2]
  · simp [Task.calculate_next_due_date, h1, h2]
  · have hspec := find?_range'_spec
      (fun off => t.recurrence_days.contains (weekday (addDays d off))) 1 7
    have hcalc : t.calculate_next_due_date d = some (addDays d (weeklyDaysAhead t d)) := by
      simp [Task.calculate_next_due_date, h1, h2]
    cases hf : (List.range' 1 7).find?
        (fun off => t.recurrence_days.contains (weekday (addDays d off))) with
    | some x =>
      rw [hf] at hspec
      have hk : weeklyDaysAhead t d = x := by unfold weeklyDaysAhead; rw [hf]
      exact ⟨x, by rw [hcalc, hk], hspec.2.1, by omega, Or.inl ⟨hspec.1, hspec.2.2.2⟩⟩
    | none =>
      rw [hf] at hspec
      have hk : weeklyDaysAhead t d = 7 := by unfold weeklyDaysAhead; rw [hf]
      exact ⟨7, by rw [hcalc, hk], by omega, by omega,
        Or.inr ⟨rfl, fun j hj1 hj2 => hspec j hj1 (by omega)⟩⟩
  · simp [Task.calculate_next_due_date, h]

/-- Witness for C4 at concrete inputs, including the spec's boundary
examples: daily 2026-02-28 → 2026-03-01 and 2025-12-31 → 2026-01-01,
every-other-day 2026-02-27 → 2026-03-01, weekly {Mon,Wed,Fri} completed
Friday 2026-02-27 → Wednesday 2026-03-04, and a non-recurring task. -/
theorem claim_C4_next_due_date_witness :
    (Task.calculate_next_due_date
        { task_id := "t1", pet_id := "p1", name := "f", duration := 10, priority := 3,
          category := "feeding", is_recurring := true, recurrence_pattern := "daily" }
        ⟨2026, 2, 28⟩ = some (addDays ⟨2026, 2, 28⟩ 1)) ∧
    addDays ⟨2026, 2, 28⟩ 1 = ⟨2026, 3, 1⟩ ∧
    (Task.calculate_next_due_date
        { task_id := "t1", pet_id := "p1", name := "f", duration := 10, priority := 3,
          category := "feeding", is_recurring := true, recurrence_pattern := "daily" }
        ⟨2025, 12, 31⟩ = some (addDays ⟨2025, 12, 31⟩ 1)) ∧
    addDays ⟨2025, 12, 31⟩ 1 = ⟨2026, 1, 1⟩ ∧
    (Task.calculate_next_due_date
        { task_id := "t2", pet_id := "p1", name := "e", duration := 10, priority := 3,
          category := "play", is_recurring := true, recurrence_pattern := "every_other_day" }
        ⟨2026, 2, 27⟩ = some (addDays ⟨2026, 2, 27⟩ 2)) ∧
    addDays ⟨2026, 2, 27⟩ 2 = ⟨2026, 3, 1⟩ ∧
    (∃ k, Task.calculate_next_due_date
        { task_id := "t3", pet_id := "p1", name := "w", duration := 30, priority := 2,
          category := "walk", is_recurring := true, recurrence_pattern := "weekly",
          recurrence_days := [0, 2, 4] } ⟨2026, 2, 27⟩ = some (addDays ⟨2026, 2, 27⟩ k) ∧
        1 ≤ k ∧ k ≤ 7 ∧
        ((List.contains [0, 2, 4] (weekday (addDays ⟨2026, 2, 27⟩ k)) = true ∧
          ∀ j, 1 ≤ j → j < k →
            List.contains [0, 2, 4] (weekday (addDays ⟨2026, 2, 27⟩ j)) = false) ∨
         (k = 7 ∧ ∀ j, 1 ≤ j → j ≤ 7 →
            List.contains [0, 2, 4] (weekday (addDays ⟨2026, 2, 27⟩ j)) = false))) ∧
    (Task.calculate_next_due_date
        { task_id := "t4", pet_id := "p1", name := "n", duration := 20, priority := 2,
          category := "play", is_recurring := false } ⟨2026, 2, 15⟩ = none) :=
  ⟨(claim_C4_next_due_date _ _).1 rfl rfl, by decide,
   (claim_C4_next_due_date _ _).1 rfl rfl, by decide,
   (claim_C4_next_due_date _ _).2.1 rfl rfl, by decide,
   (claim_C4_next_due_date _ _).2.2.1 rfl rfl,
   (claim_C4_next_due_date _ _).2.2.2 rfl⟩

/-! ### Claim C2 — prioritizer ordering -/

/-- Inserting an element of a key class into a list commutes with
filtering that key class, provided the element sorts no later than every
member of its class: this is the stability of `orderedInsert`. -/
theorem filter_orderedInsert_pos {α : Type} (r : α → α → Prop) [DecidableRel r]
    (p : α → Bool) (x : α) (hx : p x = true) (himp : ∀ y, p y = true → r x y) :
    ∀ l : List α, (List.orderedInsert r x l).filter p = x :: l.filter p := by
  intro l
  induction l with
  | nil => simp [List.orderedInsert, hx]
  | cons y l ih =>
    by_cases h : r x y
    · simp [List.orderedInsert, if_pos h, List.filter_cons, hx]
    · have hy : p y = false := by
        cases hyv : p y with
        | false => rfl
        | true => exact absurd (himp y hyv) h
      simp [List.orderedInsert, if_neg h, List.filter_cons, hy, ih]

/-- Inserting an element outside a key class leaves that class's filter
unchanged. -/
theorem filter_orderedInsert_neg {α : Type} (r : α → α → Prop) [DecidableRel r]
    (p : α → Bool) (x : α) (hx : p x = false) :
    ∀ l : List α, (List.orderedInsert r x l).filter p = l.filter p := by
  intro l
  induction l with
  | nil => simp [List.orderedInsert, hx]
  | cons y l ih =>
    by_cases h : r x y
    · simp [List.orderedInsert, if_pos h, List.filter_cons, hx]
    · simp [List.orderedInsert, if_neg h, List.filter_cons, ih]

/-- Stability of insertion sort: sorting does not reorder any key class
on which the sort relation is reflexive-in-both-directions. -/
theorem filter_insertionSort {α : Type} (r : α → α → Prop) [DecidableRel r]
    (p : α → Bool) (hcong : ∀ x y, p x = true → p y = true → r x y) :
    ∀ l : List α, (List.insertionSort r l).filter p = l.filter p := by
  intro l
  induction l with
  | nil => rfl
  | cons x l ih =>
    cases hx : p x with
    | true =>
      rw [List.insertionSort,
        filter_orderedInsert_pos r p x hx (fun y hy => hcong x y hx hy), ih,
        List.filter_cons, hx]
      simp
    | false =>
      rw [List.insertionSort, filter_orderedInsert_neg r p x hx, ih,
        List.filter_cons, hx]
      simp

/-- The prioritizer permutes its input: it drops and duplicates nothing. -/
theorem prioritize_tasks_perm (ts : List Task) : (prioritize_tasks ts).Perm ts :=
  ((List.perm_insertionSort medLe _).append
    (List.perm_insertionSort nonMedLe _)).trans
    (List.filter_append_perm (fun t => t.is_medication) ts)

/-- Claim C2: the prioritizer output is all medical tasks followed by all
non-medical tasks; the medical segment is the stable sort of the medical
tasks by priority descending, the non-medical segment the stable sort by
priority descending then preferred time-of-day under
morning(0) < flexible(1) < evening(2); the whole output is a permutation
of the input; and any medical task is positioned before any non-medical
task (in particular a priority-1 medical task precedes a priority-5
non-medical one regardless of input order). -/
theorem claim_C2_prioritizer (ts : List Task) :
    prioritize_tasks ts = prioritizeMed ts ++ prioritizeNonMed ts ∧
    (prioritize_tasks ts).Perm ts ∧
    List.Sorted medLe (prioritizeMed ts) ∧
    List.Sorted nonMedLe (prioritizeNonMed ts) ∧
    (∀ t ∈ prioritizeMed ts, t.is_medication = true) ∧
    (∀ t ∈ prioritizeNonMed ts, t.is_medication = false) ∧
    (∀ p, (prioritizeMed ts).filter (fun t => t.priority == p) =
      (ts.filter (fun t => t.is_medication)).filter (fun t => t.priority == p)) ∧
    (∀ p o, (prioritizeNonMed ts).filter
        (fun t => t.priority == p && timeOrder t.preferred_time == o) =
      (ts.filter (fun t => !t.is_medication)).filter
        (fun t => t.priority == p && timeOrder t.preferred_time == o)) ∧
    (∀ (i j : Nat) (a b : Task),
      (prioritize_tasks ts)[i]? = some a → (prioritize_tasks ts)[j]? = some b →
      a.is_medication = true → b.is_medication = false → i < j) := by
  have hmedmem : ∀ t ∈ prioritizeMed ts, t.is_medication = true := by
    intro t ht
    have := (List.perm_insertionSort medLe (ts.filter (fun t => t.is_medication))).mem_iff.mp ht
    exact List.of_mem_filter this
  have hnonmem : ∀ t ∈ prioritizeNonMed ts, t.is_medication = false := by
    intro t ht
    have := (List.perm_insertionSort nonMedLe
      (ts.filter (fun t => !t.is_medication))).mem_iff.mp ht
    have := List.of_mem_filter this
    simpa using this
  refine ⟨rfl, ?_, ?_, ?_, hmedmem, hnonmem, ?_, ?_, ?_⟩
  · exact prioritize_tasks_perm ts
  · exact List.sorted_insertionSort medLe _
  · exact List.sorted_insertionSort nonMedLe _
  · intro p
    exact filter_insertionSort medLe (fun t => t.priority == p)
      (fun x y hx hy => by
        unfold medLe
        have hx2 : x.priority = p := by simpa using hx
        have hy2 : y.priority = p := by simpa using hy
        omega) _
  · intro p o
    exact filter_insertionSort nonMedLe
      (fun t => t.priority == p && timeOrder t.preferred_time == o)
      (fun x y hx hy => by
        unfold nonMedLe
        simp only [Bool.and_eq_true, beq_iff_eq] at hx hy
        right
        exact ⟨by omega, by omega⟩) _
  · intro i j a b ha hb hamed hbmed
    have hi : i < (prioritizeMed ts).length := by
      by_contra hge
      rw [prioritize_tasks, List.getElem?_append_right (by omega)] at ha
      have := hnonmem a (List.getElem?_mem ha)
      rw [this] at hamed
      exact absurd hamed (by simp)
    have hj : (prioritizeMed ts).length ≤ j := by
      by_contra hlt
      rw [prioritize_tasks, List.getElem?_append_left (by omega)] at hb
      have := hmedmem b (List.getElem?_mem hb)
      rw [this] at hbmed
      exact absurd hbmed (by simp)
    omega

/-- Witness for C2 on a concrete task list: a priority-1 medical task
arriving after a priority-5 non-medical task still ends up first, and the
equal-priority non-medical tasks order morning before evening. -/
theorem claim_C2_prioritizer_witness :
    0 < 1 ∧
    List.Perm
      (prioritize_tasks
        [{ task_id := "t1", pet_id := "p1", name := "Play", duration := 30, priority := 5,
           category := "play", preferred_time := "evening" },
         { task_id := "med1", pet_id := "p1", name := "Medication", duration := 5, priority := 1,
           category := "medication", is_medication := true },
         { task_id := "t2", pet_id := "p1", name := "Walk", duration := 30, priority := 5,
           category := "walk", preferred_time := "morning" }])
      [{ task_id := "t1", pet_id := "p1", name := "Play", duration := 30, priority := 5,
         category := "play", preferred_time := "evening" },
       { task_id := "med1", pet_id := "p1", name := "Medication", duration := 5, priority := 1,
         category := "medication", is_medication := true },
       { task_id := "t2", pet_id := "p1", name := "Walk", duration := 30, priority := 5,
         category := "walk", preferred_time := "morning" }] := by
  constructor
  · exact (claim_C2_prioritizer
      [{ task_id := "t1", pet_id := "p1", name := "Play", duration := 30, priority := 5,
         category := "play", preferred_time := "evening" },
       { task_id := "med1", pet_id := "p1", name := "Medication", duration := 5, priority := 1,
         category := "medication", is_medication := true },
       { task_id := "t2", pet_id := "p1", name := "Walk", duration := 30, priority := 5,
         category := "walk", preferred_time := "morning" }]).2.2.2.2.2.2.2.2
      0 1
      { task_id := "med1", pet_id := "p1", name := "Medication", duration := 5, priority := 1,
        category := "medication", is_medication := true }
      { task_id := "t2", pet_id := "p1", name := "Walk", duration := 30, priority := 5,
        category := "walk", preferred_time := "morning" }
      (by decide) (by decide) rfl rfl
  · exact (claim_C2_prioritizer _).2.1

/-! ### Claim C3 — conflict detection -/

/-- Position-level specification of conflict detection, written from the
claim: one pair `(l[i], l[j])` for each ordered position pair `i < j`
whose intervals overlap. -/
def conflictPairsSpec (l : List ScheduledTask) : List (ScheduledTask × ScheduledTask) :=
  l.enum.flatMap (fun ia =>
    (l.enum.filter (fun jb => ia.1 < jb.1 && ia.2.overlaps_with jb.2)).map
      (fun jb => (ia.2, jb.2)))

theorem le_fst_of_mem_enumFrom {α : Type} :
    ∀ (l : List α) (n : Nat) (x : Nat × α), x ∈ l.enumFrom n → n ≤ x.1 := by
  intro l
  induction l with
  | nil => intro n x hx; simp at hx
  | cons a l ih =>
    intro n x hx
    rw [List.enumFrom_cons] at hx
    rcases List.mem_cons.mp hx with rfl | hx
    · exact le_refl n
    · exact Nat.le_of_succ_le (ih (n + 1) x hx)

theorem flatMap_congr {α β : Type} (f g : α → List β) :
    ∀ l : List α, (∀ x ∈ l, f x = g x) → l.flatMap f = l.flatMap g := by
  intro l
  induction l with
  | nil => intro _; rfl
  | cons a l ih =>
    intro h
    rw [List.flatMap_cons, List.flatMap_cons, h a (List.mem_cons_self a l),
      ih (fun x hx => h x (List.mem_cons_of_mem a hx))]

theorem enumFrom_filter_map_snd {α β : Type} (q : α → Bool) (f : α → β) :
    ∀ (l : List α) (k : Nat),
      ((l.enumFrom k).filter (fun jb => q jb.2)).map (fun jb => f jb.2) =
        (l.filter q).map f := by
  intro l
  induction l with
  | nil => intro k; rfl
  | cons a l ih =>
    intro k
    rw [List.enumFrom_cons, List.filter_cons, List.filter_cons]
    cases hq : q a with
    | true => simp [hq, ih]
    | false => simp [hq, ih]

/-- `_detect_conflicts` computes exactly the position-level pair list. -/
theorem detect_conflicts_enumFrom (l : List ScheduledTask) : ∀ n : Nat,
    detect_conflicts l = (l.enumFrom n).flatMap (fun ia =>
      ((l.enumFrom n).filter (fun jb => ia.1 < jb.1 && ia.2.overlaps_with jb.2)).map
        (fun jb => (ia.2, jb.2))) := by
  induction l with
  | nil => intro n; rfl
  | cons t rest ih =>
    intro n
    rw [List.enumFrom_cons, List.flatMap_cons]
    have hhead :
        (((n, t) :: rest.enumFrom (n + 1)).filter
            (fun jb => n < jb.1 && t.overlaps_with jb.2)).map (fun jb => (t, jb.2)) =
          (rest.filter (fun u => t.overlaps_with u)).map (fun u => (t, u)) := by
      rw [List.filter_cons, if_neg (by simp)]
      rw [List.filter_congr (fun x hx => by
        have := le_fst_of_mem_enumFrom _ _ _ hx
        have hn : (decide (n < x.1)) = true := by simp; omega
        rw [hn, Bool.true_and])]
      exact enumFrom_filter_map_snd (fun u => t.overlaps_with u) (fun u => (t, u)) rest (n + 1)
    have htail :
        (rest.enumFrom (n + 1)).flatMap (fun ia =>
            (((n, t) :: rest.enumFrom (n + 1)).filter
              (fun jb => ia.1 < jb.1 && ia.2.overlaps_with jb.2)).map
                (fun jb => (ia.2, jb.2))) =
          detect_conflicts rest := by
      rw [flatMap_congr _ (fun ia =>
          ((rest.enumFrom (n + 1)).filter
            (fun jb => ia.1 < jb.1 && ia.2.overlaps_with jb.2)).map
              (fun jb => (ia.2, jb.2)))]
      · exact (ih (n + 1)).symm
      · intro ia hia
        rw [List.filter_cons]
        have := le_fst_of_mem_enumFrom _ _ _ hia
        have hn : (decide (ia.1 < n)) = false := by simp; omega
        rw [if_neg (by rw [hn, Bool.false_and]; simp)]
    rw [hhead, htail]
    rfl

/-- Claim C3: `_detect_conflicts` returns exactly one pair for each
ordered pair of distinct positions `i < j` whose intervals satisfy
`A.start < B.end ∧ A.end > B.start`; the overlap predicate is symmetric;
exact touch (one task's end equal to the other's start) is never a
conflict, while strict mutual overlap always is; and the spec's three
mutually overlapping tasks 09:00–09:30, 09:15–09:45, 09:20–09:50 yield
exactly three pairs. -/
theorem claim_C3_conflicts :
    (∀ l : List ScheduledTask, detect_conflicts l = conflictPairsSpec l) ∧
    (∀ a b : ScheduledTask, a.overlaps_with b = b.overlaps_with a) ∧
    (∀ a b : ScheduledTask, a.end_time = b.start_time →
      a.overlaps_with b = false ∧ b.overlaps_with a = false) ∧
    (∀ a b : ScheduledTask, timeLt a.start_time b.end_time = true →
      timeLt b.start_time a.end_time = true → a.overlaps_with b = true) ∧
    (detect_conflicts
      [{ task_id := "t1", start_time := ⟨9, 0⟩, end_time := ⟨9, 30⟩, pet_id := "p1" },
       { task_id := "t2", start_time := ⟨9, 15⟩, end_time := ⟨9, 45⟩, pet_id := "p2" },
       { task_id := "t3", start_time := ⟨9, 20⟩, end_time := ⟨9, 50⟩, pet_id := "p3" }]).length
      = 3 := by
  refine ⟨?_, ?_, ?_, ?_, by decide⟩
  · intro l
    exact detect_conflicts_enumFrom l 0
  · intro a b
    unfold ScheduledTask.overlaps_with
    exact Bool.and_comm _ _
  · intro a b h
    unfold ScheduledTask.overlaps_with
    rw [h]
    constructor
    · have : timeLt b.start_time b.start_time = false := by
        unfold timeLt
        simp
      rw [this, Bool.and_false]
    · have : timeLt b.start_time b.start_time = false := by
        unfold timeLt
        simp
      rw [this, Bool.false_and]
  · intro a b h1 h2
    unfold ScheduledTask.overlaps_with
    rw [h1, h2]
    rfl

/-- Witness for C3: a back-to-back pair (end of one equal to start of the
next) is not reported as a conflict. -/
theorem claim_C3_conflicts_witness :
    ScheduledTask.overlaps_with
        { task_id := "t1", start_time := ⟨9, 0⟩, end_time := ⟨9, 15⟩, pet_id := "p1" }
        { task_id := "t2", start_time := ⟨9, 15⟩, end_time := ⟨9, 30⟩, pet_id := "p2" }
      = false ∧
    ScheduledTask.overlaps_with
        { task_id := "t2", start_time := ⟨9, 15⟩, end_time := ⟨9, 30⟩, pet_id := "p2" }
        { task_id := "t1", start_time := ⟨9, 0⟩, end_time := ⟨9, 15⟩, pet_id := "p1" }
      = false :=
  claim_C3_conflicts.2.2.1
    { task_id := "t1", start_time := ⟨9, 0⟩, end_time := ⟨9, 15⟩, pet_id := "p1" }
    { task_id := "t2", start_time := ⟨9, 15⟩, end_time := ⟨9, 30⟩, pet_id := "p2" }
    rfl

/-! ### Placer lemmas -/

theorem timeLe_iff (a b : PyTime) :
    timeLe a b = true ↔ a.hour < b.hour ∨ (a.hour = b.hour ∧ a.minute ≤ b.minute) := by
  simp [timeLe]

theorem timeLt_iff (a b : PyTime) :
    timeLt a b = true ↔ a.hour < b.hour ∨ (a.hour = b.hour ∧ a.minute < b.minute) := by
  simp [timeLt]

theorem timeLt_eq_false_of_timeLe {a b : PyTime} (h : timeLe a b = true) :
    timeLt b a = false := by
  rw [timeLe_iff] at h
  cases hv : timeLt b a
  · rfl
  · rw [timeLt_iff] at hv
    omega

theorem timeLe_trans {a b c : PyTime} (h1 : timeLe a b = true) (h2 : timeLe b c = true) :
    timeLe a c = true := by
  rw [timeLe_iff] at *
  omega

/-- The placer's end-time arithmetic: when `time(end_hour, end_minute)`
does not raise, the result is exactly cursor + duration in minutes, with
both fields in range. -/
theorem addMinutes?_spec (c : PyTime) (dur : Nat) (t' : PyTime)
    (h : addMinutes? c dur = some t') :
    t'.hour * 60 + t'.minute = c.hour * 60 + c.minute + dur ∧
      t'.hour ≤ 23 ∧ t'.minute ≤ 59 := by
  obtain ⟨th, tm⟩ := t'
  simp only [addMinutes?, mkTime?] at h
  split at h <;> split at h <;>
    simp only [Option.some.injEq, PyTime.mk.injEq, reduceCtorEq] at h <;>
    simp_all <;> omega

/-- When the end-time arithmetic succeeds, the candidate end is no
earlier than the cursor (given in-range minutes on both sides). -/
theorem addMinutes?_le (c : PyTime) (dur : Nat) (t' : PyTime) (hc : c.minute ≤ 59)
    (h : addMinutes? c dur = some t') : timeLe c t' = true := by
  obtain ⟨heq, _, hm⟩ := addMinutes?_spec c dur t' h
  rw [timeLe_iff]
  omega

/-- Placement-loop invariant: every placed interval starts no earlier
than the entry cursor, all times stay in range, and the placed list is a
`≤`-chain: each placement's end is at or before every later placement's
start. -/
theorem fitGo_chain (d : PyDate) (e : PyTime) :
    ∀ (ts : List Task) (c : PyTime) (l : List ScheduledTask), c.minute ≤ 59 →
      fitGo d e ts c = some l →
      (∀ a ∈ l, timeLe c a.start_time = true ∧ a.start_time.minute ≤ 59 ∧
        a.end_time.minute ≤ 59) ∧
      List.Pairwise (fun a b => timeLe a.end_time b.start_time = true) l := by
  intro ts
  induction ts with
  | nil =>
    intro c l hc h
    simp only [fitGo, Option.some.injEq] at h
    subst h
    exact ⟨by simp, by simp⟩
  | cons t rest ih =>
    intro c l hc h
    rw [fitGo] at h
    cases hadd : addMinutes? c t.duration with
    | none => rw [hadd] at h; exact Option.noConfusion h
    | some tEnd =>
      rw [hadd] at h
      replace h : (if (timeLe tEnd e || t.is_medication) = true then
          Option.map (fun l => mkScheduled t c tEnd d :: l) (fitGo d e rest tEnd)
        else fitGo d e rest c) = some l := h
      obtain ⟨heq, hh23, hm59⟩ := addMinutes?_spec c t.duration tEnd hadd
      have hcle : timeLe c tEnd = true := addMinutes?_le c t.duration tEnd hc hadd
      by_cases hacc : (timeLe tEnd e || t.is_medication) = true
      · rw [if_pos hacc] at h
        cases hrec : fitGo d e rest tEnd with
        | none => rw [hrec] at h; exact Option.noConfusion h
        | some tail =>
          rw [hrec] at h
          simp only [Option.map_some', Option.some.injEq] at h
          subst h
          obtain ⟨hmem, hpair⟩ := ih tEnd tail hm59 hrec
          refine ⟨?_, ?_⟩
          · intro a ha
            rcases List.mem_cons.mp ha with rfl | ha
            · refine ⟨?_, hc, hm59⟩
              show timeLe c c = true
              rw [timeLe_iff]
              omega
            · obtain ⟨h1, h2, h3⟩ := hmem a ha
              exact ⟨timeLe_trans hcle h1, h2, h3⟩
          · refine List.Pairwise.cons ?_ hpair
            intro b hb
            exact (hmem b hb).1
      · rw [if_neg hacc] at h
        exact ih c l hc h

/-- The placement loop never produces two overlapping intervals: the
single moving cursor separates every pair of placements. -/
theorem fitGo_no_overlap (d : PyDate) (e : PyTime) (ts : List Task) (c : PyTime)
    (l : List ScheduledTask) (hc : c.minute ≤ 59) (h : fitGo d e ts c = some l) :
    List.Pairwise (fun a b =>
      a.overlaps_with b = false ∧ b.overlaps_with a = false) l := by
  refine ((fitGo_chain d e ts c l hc h).2).imp ?_
  intro a b hab
  have hlt : timeLt b.start_time a.end_time = false := timeLt_eq_false_of_timeLe hab
  constructor
  · unfold ScheduledTask.overlaps_with
    rw [hlt, Bool.and_false]
  · unfold ScheduledTask.overlaps_with
    rw [hlt, Bool.false_and]

/-- A pairwise non-overlapping list yields no conflicts. -/
theorem detect_conflicts_eq_nil (l : List ScheduledTask)
    (h : List.Pairwise (fun a b => a.overlaps_with b = false) l) :
    detect_conflicts l = [] := by
  induction l with
  | nil => rfl
  | cons t rest ih =>
    rw [List.pairwise_cons] at h
    rw [detect_conflicts, List.filter_eq_nil_iff.mpr (fun u hu => by simp [h.1 u hu]),
      List.map_nil, List.nil_append]
    exact ih h.2

/-! ### Claim C1 — placer acceptance rule -/

/-- Claim C1: at every step of the placement loop (hence at every
position of every ordered task list, for every availability window and
cursor), when the run completes, the head task is placed — with exactly
the candidate start/end interval — if and only if its candidate end
time-of-day (cursor plus duration with minute-to-hour carry) is at most
the window end or the task is medical; a non-medical task whose
candidate end exceeds the window end is never placed, a medical one in
the same position always is, and a skipped task leaves the cursor
unchanged for the remaining tasks. -/
theorem claim_C1_placer (date : PyDate) (availEnd : PyTime) (t : Task) (rest : List Task)
    (c : PyTime) (out : List ScheduledTask)
    (h : fitGo date availEnd (t :: rest) c = some out) :
    ∃ tEnd, addMinutes? c t.duration = some tEnd ∧
      ((timeLe tEnd availEnd = true ∨ t.is_medication = true) →
        ∃ tail, out = mkScheduled t c tEnd date :: tail ∧
          fitGo date availEnd rest tEnd = some tail) ∧
      (timeLe tEnd availEnd = false → t.is_medication = false →
        fitGo date availEnd rest c = some out) := by
  rw [fitGo] at h
  cases hadd : addMinutes? c t.duration with
  | none => rw [hadd] at h; exact Option.noConfusion h
  | some tEnd =>
    rw [hadd] at h
    replace h : (if (timeLe tEnd availEnd || t.is_medication) = true then
        Option.map (fun l => mkScheduled t c tEnd date :: l) (fitGo date availEnd rest tEnd)
      else fitGo date availEnd rest c) = some out := h
    refine ⟨tEnd, rfl, ?_, ?_⟩
    · intro hacc
      have hacc' : (timeLe tEnd availEnd || t.is_medication) = true := by
        rcases hacc with h1 | h1 <;> simp [h1]
      rw [if_pos hacc'] at h
      cases hrec : fitGo date availEnd rest tEnd with
      | none => rw [hrec] at h; exact Option.noConfusion h
      | some tail =>
        rw [hrec] at h
        simp only [Option.map_some', Option.some.injEq] at h
        exact ⟨tail, h.symm, rfl⟩
    · intro h1 h2
      rw [if_neg (by simp [h1, h2])] at h
      exact h

/-- A 240-minute non-medical task (the repo's `test_schedule_respects_availability_bounds`). -/
def longTask : Task :=
  { task_id := "t1", pet_id := "p1", name := "Long Task", duration := 240,
    priority := 1, category := "play" }

/-- A 240-minute medical task exceeding a 9–12 window. -/
def critMedTask : Task :=
  { task_id := "med1", pet_id := "p1", name := "Critical Medication", duration := 240,
    priority := 5, category := "medication", is_medication := true }

/-- Witness for C1: with window end 12:00 and cursor 09:00, a 240-minute
non-medical task (candidate end 13:00) is skipped with the cursor left
at 09:00, and the same-size medical task is placed at 09:00–13:00. -/
theorem claim_C1_placer_witness :
    (∃ tEnd, addMinutes? ⟨9, 0⟩ longTask.duration = some tEnd ∧
      ((timeLe tEnd ⟨12, 0⟩ = true ∨ longTask.is_medication = true) →
        ∃ tail, ([] : List ScheduledTask) =
            mkScheduled longTask ⟨9, 0⟩ tEnd ⟨2026, 2, 15⟩ :: tail ∧
          fitGo ⟨2026, 2, 15⟩ ⟨12, 0⟩ [] tEnd = some tail) ∧
      (timeLe tEnd ⟨12, 0⟩ = false → longTask.is_medication = false →
        fitGo ⟨2026, 2, 15⟩ ⟨12, 0⟩ [] ⟨9, 0⟩ = some [])) ∧
    (∃ tEnd, addMinutes? ⟨9, 0⟩ critMedTask.duration = some tEnd ∧
      ((timeLe tEnd ⟨12, 0⟩ = true ∨ critMedTask.is_medication = true) →
        ∃ tail, [mkScheduled critMedTask ⟨9, 0⟩ ⟨13, 0⟩ ⟨2026, 2, 15⟩] =
            mkScheduled critMedTask ⟨9, 0⟩ tEnd ⟨2026, 2, 15⟩ :: tail ∧
          fitGo ⟨2026, 2, 15⟩ ⟨12, 0⟩ [] tEnd = some tail) ∧
      (timeLe tEnd ⟨12, 0⟩ = false → critMedTask.is_medication = false →
        fitGo ⟨2026, 2, 15⟩ ⟨12, 0⟩ [] ⟨9, 0⟩ =
          some [mkScheduled critMedTask ⟨9, 0⟩ ⟨13, 0⟩ ⟨2026, 2, 15⟩])) :=
  ⟨claim_C1_placer ⟨2026, 2, 15⟩ ⟨12, 0⟩ longTask [] ⟨9, 0⟩ [] (by decide),
   claim_C1_placer ⟨2026, 2, 15⟩ ⟨12, 0⟩ critMedTask [] ⟨9, 0⟩
     [mkScheduled critMedTask ⟨9, 0⟩ ⟨13, 0⟩ ⟨2026, 2, 15⟩] (by decide)⟩

/-! ### Claim C10 — scheduler output has no conflicts -/

theorem mkTime?_bounds {h m : Nat} {t : PyTime} (hc : mkTime? h m = some t) :
    t.hour ≤ 23 ∧ t.minute ≤ 59 := by
  unfold mkTime? at hc
  split at hc
  · obtain rfl := Option.some.inj hc
    simp_all
  · exact Option.noConfusion hc

theorem parseHM?_bounds {l : List Char} {t : PyTime} (hp : parseHM? l = some t) :
    t.hour ≤ 23 ∧ t.minute ≤ 59 := by
  unfold parseHM? at hp
  split at hp
  · split at hp
    · exact mkTime?_bounds hp
    · exact Option.noConfusion hp
  · exact Option.noConfusion hp

theorem parseTimeToken?_bounds {l : List Char} {t : PyTime}
    (hp : parseTimeToken? l = some t) : t.hour ≤ 23 ∧ t.minute ≤ 59 := by
  unfold parseTimeToken? at hp
  split at hp
  · exact parseHM?_bounds hp
  · cases hn : pyIntNat? l with
    | none => rw [hn] at hp; exact Option.noConfusion hp
    | some n => rw [hn] at hp; exact mkTime?_bounds hp

theorem availTokens_bounds (p0 p1 : List Char) {a b : PyTime}
    (h : (match parseTimeToken? (pyStrip p0), parseTimeToken? (pyStrip p1) with
      | some x, some y => some (x, y)
      | _, _ => none) = some (a, b)) :
    a.hour ≤ 23 ∧ a.minute ≤ 59 ∧ b.hour ≤ 23 ∧ b.minute ≤ 59 := by
  cases h1 : parseTimeToken? (pyStrip p0) with
  | none => rw [h1] at h; exact Option.noConfusion h
  | some x =>
    cases h2 : parseTimeToken? (pyStrip p1) with
    | none => rw [h1, h2] at h; exact Option.noConfusion h
    | some y =>
      rw [h1, h2] at h
      have hxy := Option.some.inj h
      obtain ⟨hx1, hx2⟩ := parseTimeToken?_bounds h1
      obtain ⟨hy1, hy2⟩ := parseTimeToken?_bounds h2
      injection hxy with hxa hyb
      subst hxa
      subst hyb
      exact ⟨hx1, hx2, hy1, hy2⟩

theorem parseAvailEntry?_bounds {s : String} {a b : PyTime}
    (hp : parseAvailEntry? s = some (a, b)) :
    a.hour ≤ 23 ∧ a.minute ≤ 59 ∧ b.hour ≤ 23 ∧ b.minute ≤ 59 := by
  unfold parseAvailEntry? at hp
  split at hp
  · split at hp
    · exact availTokens_bounds _ _ hp
    · exact Option.noConfusion hp
  · exact Option.noConfusion hp

/-- The parsed availability window always consists of in-range times. -/
theorem parse_availability_bounds (av : List String) :
    (parse_availability av).1.hour ≤ 23 ∧ (parse_availability av).1.minute ≤ 59 ∧
    (parse_availability av).2.hour ≤ 23 ∧ (parse_availability av).2.minute ≤ 59 := by
  cases av with
  | nil => decide
  | cons s rest =>
    show ((parseAvailEntry? s).getD (⟨9, 0⟩, ⟨17, 0⟩)).1.hour ≤ 23 ∧
      ((parseAvailEntry? s).getD (⟨9, 0⟩, ⟨17, 0⟩)).1.minute ≤ 59 ∧
      ((parseAvailEntry? s).getD (⟨9, 0⟩, ⟨17, 0⟩)).2.hour ≤ 23 ∧
      ((parseAvailEntry? s).getD (⟨9, 0⟩, ⟨17, 0⟩)).2.minute ≤ 59
    cases hp : parseAvailEntry? s with
    | none => decide
    | some ab =>
      obtain ⟨a, b⟩ := ab
      exact parseAvailEntry?_bounds hp

/-- Claim C10: a schedule produced by `schedule_tasks` (that is, any run
on which the placer's time arithmetic does not overflow past hour 23)
has an empty conflicts list and `has_conflicts` is false: the single
advancing cursor keeps every placed interval disjoint from the others,
including medical placements past the window end. -/
theorem claim_C10_no_conflicts (u : User) (d : PyDate) (s : DailySchedule)
    (h : schedule_tasks u d = some s) :
    s.conflicts = [] ∧ s.has_conflicts = false := by
  unfold schedule_tasks at h
  set prioritized := prioritize_tasks (dayTasks u d) with hprio
  cases hfit : fit_tasks_in_schedule prioritized (parse_availability u.availability).1
      (parse_availability u.availability).2 d with
  | none => rw [hfit] at h; exact Option.noConfusion h
  | some scheduled =>
    rw [hfit] at h
    obtain rfl := Option.some.inj h
    have hconf : detect_conflicts scheduled = [] := by
      unfold fit_tasks_in_schedule at hfit
      cases hraw : fitGo d (parse_availability u.availability).2 prioritized
          (parse_availability u.availability).1 with
      | none => rw [hraw] at hfit; exact Option.noConfusion hfit
      | some raw =>
        rw [hraw] at hfit
        simp only [Option.map_some', Option.some.injEq] at hfit
        have hpw : List.Pairwise (fun a b =>
            a.overlaps_with b = false ∧ b.overlaps_with a = false) raw :=
          fitGo_no_overlap d (parse_availability u.availability).2 prioritized
            (parse_availability u.availability).1 raw
            (parse_availability_bounds u.availability).2.1 hraw
        have hsym : ∀ {x y : ScheduledTask},
            (x.overlaps_with y = false ∧ y.overlaps_with x = false) →
            (y.overlaps_with x = false ∧ x.overlaps_with y = false) :=
          fun hxy => ⟨hxy.2, hxy.1⟩
        have hpw2 : List.Pairwise (fun a b =>
            a.overlaps_with b = false ∧ b.overlaps_with a = false) scheduled := by
          rw [← hfit] at *
          exact ((List.perm_insertionSort byStartLe raw).pairwise_iff hsym).mpr hpw
        exact detect_conflicts_eq_nil scheduled (hpw2.imp fun hab => hab.1)
    refine ⟨hconf, ?_⟩
    simp [DailySchedule.has_conflicts, hconf]

/-- The user of the repo's integration test: one pet with a 30-minute
play task and a 5-minute daily medication, window 9–17. -/
def demoUser : User :=
  { username := "john", password := "pass", availability := ["9-17"],
    pets := [{ pet_id := "p1", name := "Buddy", species := "Dog", age := 2,
               health_info := "",
               tasks := [{ task_id := "t1", pet_id := "p1", name := "Play",
                           duration := 30, priority := 3, category := "play" },
                         { task_id := "med1", pet_id := "p1", name := "Medication",
                           duration := 5, priority := 5, category := "medication",
                           is_medication := true, is_recurring := true }] }] }

/-- Witness for C10: the repo's integration scenario (a daily medication
and a play task, window 9–17) produces a schedule with no conflicts. -/
theorem claim_C10_no_conflicts_witness :
    ∃ s, schedule_tasks demoUser ⟨2026, 2, 15⟩ = some s ∧
      s.conflicts = [] ∧ s.has_conflicts = false := by
  have hs : (schedule_tasks demoUser ⟨2026, 2, 15⟩).isSome = true := by decide
  obtain ⟨s, hseq⟩ := Option.isSome_iff_exists.mp hs
  exact ⟨s, hseq, claim_C10_no_conflicts _ _ _ hseq⟩

/-! ### Claim C6 — totality -/

/-- Total workload of a task list, in minutes. -/
def sumDurations (ts : List Task) : Nat :=
  (ts.map (fun t => t.duration)).sum

/-- Step equation for the placement loop: accepted head. -/
theorem fitGo_cons_accept (d : PyDate) (e : PyTime) (t : Task) (rest : List Task)
    (c tEnd : PyTime) (hadd : addMinutes? c t.duration = some tEnd)
    (hacc : (timeLe tEnd e || t.is_medication) = true) :
    fitGo d e (t :: rest) c =
      Option.map (fun l => mkScheduled t c tEnd d :: l) (fitGo d e rest tEnd) := by
  rw [fitGo, hadd]
  show (if (timeLe tEnd e || t.is_medication) = true then
      Option.map (fun l => mkScheduled t c tEnd d :: l) (fitGo d e rest tEnd)
    else fitGo d e rest c) = _
  rw [if_pos hacc]

/-- Step equation for the placement loop: skipped head, cursor unchanged. -/
theorem fitGo_cons_skip (d : PyDate) (e : PyTime) (t : Task) (rest : List Task)
    (c tEnd : PyTime) (hadd : addMinutes? c t.duration = some tEnd)
    (hacc : (timeLe tEnd e || t.is_medication) = false) :
    fitGo d e (t :: rest) c = fitGo d e rest c := by
  rw [fitGo, hadd]
  show (if (timeLe tEnd e || t.is_medication) = true then
      Option.map (fun l => mkScheduled t c tEnd d :: l) (fitGo d e rest tEnd)
    else fitGo d e rest c) = _
  rw [if_neg (by simp [hacc])]

/-- The placement loop completes whenever the cursor start plus the total
duration of the attempted tasks stays within the day (≤ 23:59): the
cursor never moves past the first rejected candidate, so no candidate
end can carry past hour 23. -/
theorem fitGo_total (d : PyDate) (e : PyTime) :
    ∀ (ts : List Task) (c : PyTime), c.minute ≤ 59 →
      c.hour * 60 + c.minute + sumDurations ts ≤ 1439 →
      ∃ l, fitGo d e ts c = some l := by
  intro ts
  induction ts with
  | nil => intro c hc hb; exact ⟨[], rfl⟩
  | cons t rest ih =>
    intro c hc hb
    have hsum : sumDurations (t :: rest) = t.duration + sumDurations rest := by
      simp [sumDurations]
    rw [hsum] at hb
    by_cases h60 : 60 ≤ c.minute + t.duration % 60
    · have haddm : addMinutes? c t.duration =
          some ⟨c.hour + t.duration / 60 + 1, c.minute + t.duration % 60 - 60⟩ := by
        simp only [addMinutes?, mkTime?]
        rw [if_pos (by omega), if_pos (by constructor <;> omega)]
      cases hacc : (timeLe ⟨c.hour + t.duration / 60 + 1, c.minute + t.duration % 60 - 60⟩ e
          || t.is_medication) with
      | true =>
        rw [fitGo_cons_accept d e t rest c _ haddm hacc]
        obtain ⟨l, hl⟩ := ih ⟨c.hour + t.duration / 60 + 1, c.minute + t.duration % 60 - 60⟩
          (by simp only; omega) (by simp only; omega)
        exact ⟨_, by rw [hl]; rfl⟩
      | false =>
        rw [fitGo_cons_skip d e t rest c _ haddm hacc]
        exact ih c hc (by omega)
    · have haddm : addMinutes? c t.duration =
          some ⟨c.hour + t.duration / 60, c.minute + t.duration % 60⟩ := by
        simp only [addMinutes?, mkTime?]
        rw [if_neg (by omega), if_pos (by constructor <;> omega)]
      cases hacc : (timeLe ⟨c.hour + t.duration / 60, c.minute + t.duration % 60⟩ e
          || t.is_medication) with
      | true =>
        rw [fitGo_cons_accept d e t rest c _ haddm hacc]
        obtain ⟨l, hl⟩ := ih ⟨c.hour + t.duration / 60, c.minute + t.duration % 60⟩
          (by simp only; omega) (by simp only; omega)
        exact ⟨_, by rw [hl]; rfl⟩
      | false =>
        rw [fitGo_cons_skip d e t rest c _ haddm hacc]
        exact ih c hc (by omega)

/-- A well-formed user (positive duration, priority 5, parseable window)
on whom `schedule_tasks` nevertheless raises: a single 960-minute medical
task starting at 09:00 carries the candidate end past hour 23, and
`time(end_hour, end_minute)` raises `ValueError`. -/
def overflowUser : User :=
  { username := "john", password := "pass", availability := ["9-17"],
    pets := [{ pet_id := "p1", name := "Buddy", species := "Dog", age := 2,
               health_info := "",
               tasks := [{ task_id := "med1", pet_id := "p1", name := "Marathon Medication",
                           duration := 960, priority := 5, category := "medication",
                           is_medication := true }] }] }

/-- Counterexample to claim C6 as stated: `overflowUser` is well-formed
(its one task has positive duration 960 and priority 5 ∈ [1,5], and its
availability parses to the 09:00–17:00 window), yet `schedule_tasks`
fails (`none` models the uncaught `ValueError` from `time()`). -/
theorem claim_C6_totality_counterexample :
    schedule_tasks overflowUser ⟨2026, 2, 15⟩ = none ∧
    (∀ t ∈ dayTasks overflowUser ⟨2026, 2, 15⟩, 0 < t.duration ∧ 1 ≤ t.priority ∧
      t.priority ≤ 5) ∧
    parse_availability overflowUser.availability = (⟨9, 0⟩, ⟨17, 0⟩) := by
  refine ⟨by decide, by decide, by decide⟩

/-- Claim C6 amended: every engine operation completes and returns a
result on well-formed inputs, provided additionally that the window
start plus the day's total task duration stays within 23:59, so that the
placer's time arithmetic cannot carry past hour 23.  (The schedule
queries and `mark_complete` are total unconditionally — they are plain
functions in this embedding; the placer arithmetic inside
`schedule_tasks` is the only failure point.) -/
theorem claim_C6_totality_amended (u : User) (d : PyDate)
    (h : (parse_availability u.availability).1.hour * 60 +
      (parse_availability u.availability).1.minute + sumDurations (dayTasks u d) ≤ 1439) :
    ∃ s, schedule_tasks u d = some s := by
  have hsum : sumDurations (prioritize_tasks (dayTasks u d)) = sumDurations (dayTasks u d) := by
    unfold sumDurations
    exact ((prioritize_tasks_perm (dayTasks u d)).map _).sum_eq
  obtain ⟨l, hl⟩ := fitGo_total d (parse_availability u.availability).2
    (prioritize_tasks (dayTasks u d)) (parse_availability u.availability).1
    (parse_availability_bounds u.availability).2.1 (by rw [hsum]; exact h)
  have hfit : fit_tasks_in_schedule (prioritize_tasks (dayTasks u d))
      (parse_availability u.availability).1 (parse_availability u.availability).2 d =
      some (List.insertionSort byStartLe l) := by
    unfold fit_tasks_in_schedule
    rw [hl]
    rfl
  have hsome : (schedule_tasks u d).isSome = true := by
    unfold schedule_tasks
    rw [hfit]
    rfl
  exact Option.isSome_iff_exists.mp hsome

/-- Witness for the amended C6: the demo user's workload (35 minutes from
09:00) satisfies the no-overflow bound, and scheduling succeeds. -/
theorem claim_C6_totality_amended_witness :
    ∃ s, schedule_tasks demoUser ⟨2026, 2, 15⟩ = some s :=
  claim_C6_totality_amended demoUser ⟨2026, 2, 15⟩ (by decide)

/-! ### Claim C7 — availability fallback -/


theorem digitChar_lt (n : Nat) : (digitChar n).toNat ≤ 57 ∧ 48 ≤ (digitChar n).toNat := by
  have h : n % 10 < 10 := Nat.mod_lt _ (by omega)
  unfold digitChar
  set k := n % 10 with hk
  interval_cases k <;> decide

theorem digitChar_isDigit (n : Nat) : isDigitChar (digitChar n) = true := by
  have h : n % 10 < 10 := Nat.mod_lt _ (by omega)
  unfold digitChar isDigitChar
  set k := n % 10 with hk
  interval_cases k <;> decide

theorem digitVal_digitChar (n : Nat) : digitVal (digitChar n) = n % 10 := by
  have h : n % 10 < 10 := Nat.mod_lt _ (by omega)
  unfold digitChar digitVal
  set k := n % 10 with hk
  interval_cases k <;> decide

theorem digitChar_ne_dash (n : Nat) : digitChar n ≠ '-' := by
  have h : n % 10 < 10 := Nat.mod_lt _ (by omega)
  unfold digitChar
  set k := n % 10 with hk
  interval_cases k <;> decide

theorem digitChar_ne_colon (n : Nat) : digitChar n ≠ ':' := by
  have h : n % 10 < 10 := Nat.mod_lt _ (by omega)
  unfold digitChar
  set k := n % 10 with hk
  interval_cases k <;> decide

theorem isSpaceChar_digitChar (n : Nat) : isSpaceChar (digitChar n) = false := by
  have h : n % 10 < 10 := Nat.mod_lt _ (by omega)
  unfold digitChar isSpaceChar
  set k := n % 10 with hk
  interval_cases k <;> decide

theorem dash_beq_digitChar (n : Nat) : (('-' : Char) == digitChar n) = false :=
  beq_eq_false_iff_ne.mpr (fun h => digitChar_ne_dash n h.symm)

theorem colon_beq_digitChar (n : Nat) : ((':' : Char) == digitChar n) = false :=
  beq_eq_false_iff_ne.mpr (fun h => digitChar_ne_colon n h.symm)


theorem splitChar_dash_fmt (h1 m1 h2 m2 : Nat) :
    splitChar '-' [digitChar (h1 / 10), digitChar h1, ':', digitChar (m1 / 10), digitChar m1,
        '-', digitChar (h2 / 10), digitChar h2, ':', digitChar (m2 / 10), digitChar m2] =
      [[digitChar (h1 / 10), digitChar h1, ':', digitChar (m1 / 10), digitChar m1],
       [digitChar (h2 / 10), digitChar h2, ':', digitChar (m2 / 10), digitChar m2]] := by
  simp [splitChar, digitChar_ne_dash, show (':' : Char) ≠ '-' by decide]

theorem pyStrip_hm (h1 m1 : Nat) :
    pyStrip [digitChar (h1 / 10), digitChar h1, ':', digitChar (m1 / 10), digitChar m1] =
      [digitChar (h1 / 10), digitChar h1, ':', digitChar (m1 / 10), digitChar m1] := by
  simp [pyStrip, List.dropWhile, isSpaceChar_digitChar, show isSpaceChar ':' = false by decide]

theorem parseHM_fmt (h1 m1 : Nat) (hh1 : h1 ≤ 23) (hm1 : m1 ≤ 59) :
    parseHM? [digitChar (h1 / 10), digitChar h1, ':', digitChar (m1 / 10), digitChar m1] =
      some ⟨h1, m1⟩ := by
  unfold parseHM?
  rw [show splitChar ':' [digitChar (h1 / 10), digitChar h1, ':', digitChar (m1 / 10),
      digitChar m1] = [[digitChar (h1 / 10), digitChar h1], [digitChar (m1 / 10), digitChar m1]]
    by simp [splitChar, digitChar_ne_colon]]
  show (if 1 ≤ List.length [digitChar (h1 / 10), digitChar h1] ∧
      List.length [digitChar (h1 / 10), digitChar h1] ≤ 2 ∧
      List.all [digitChar (h1 / 10), digitChar h1] isDigitChar = true ∧
      1 ≤ List.length [digitChar (m1 / 10), digitChar m1] ∧
      List.length [digitChar (m1 / 10), digitChar m1] ≤ 2 ∧
      List.all [digitChar (m1 / 10), digitChar m1] isDigitChar = true then
      mkTime? (digitsVal [digitChar (h1 / 10), digitChar h1])
        (digitsVal [digitChar (m1 / 10), digitChar m1])
    else none) = some ⟨h1, m1⟩
  rw [if_pos ⟨by simp, by simp, by simp [digitChar_isDigit], by simp, by simp,
    by simp [digitChar_isDigit]⟩]
  rw [show digitsVal [digitChar (h1 / 10), digitChar h1] = h1 by
      simp [digitsVal, digitVal_digitChar]; omega]
  rw [show digitsVal [digitChar (m1 / 10), digitChar m1] = m1 by
      simp [digitsVal, digitVal_digitChar]; omega]
  unfold mkTime?
  rw [if_pos ⟨hh1, hm1⟩]

theorem parseTimeToken_fmt (h1 m1 : Nat) (hh1 : h1 ≤ 23) (hm1 : m1 ≤ 59) :
    parseTimeToken? [digitChar (h1 / 10), digitChar h1, ':', digitChar (m1 / 10), digitChar m1] =
      some ⟨h1, m1⟩ := by
  unfold parseTimeToken?
  rw [if_pos (by simp [List.contains, List.elem, colon_beq_digitChar])]
  exact parseHM_fmt h1 m1 hh1 hm1

theorem parseAvailEntry_fmt (h1 m1 h2 m2 : Nat) (hh1 : h1 ≤ 23) (hm1 : m1 ≤ 59)
    (hh2 : h2 ≤ 23) (hm2 : m2 ≤ 59) :
    parseAvailEntry? (fmtHM ⟨h1, m1⟩ ++ "-" ++ fmtHM ⟨h2, m2⟩) =
      some (⟨h1, m1⟩, ⟨h2, m2⟩) := by
  have hdata : (fmtHM ⟨h1, m1⟩ ++ "-" ++ fmtHM ⟨h2, m2⟩).data =
      [digitChar (h1 / 10), digitChar h1, ':', digitChar (m1 / 10), digitChar m1,
        '-', digitChar (h2 / 10), digitChar h2, ':', digitChar (m2 / 10), digitChar m2] := rfl
  unfold parseAvailEntry?
  rw [hdata]
  rw [if_pos (by simp [List.contains, List.elem, dash_beq_digitChar,
    show (('-' : Char) == ':') = false by decide])]
  rw [splitChar_dash_fmt h1 m1 h2 m2]
  show (match parseTimeToken? (pyStrip [digitChar (h1 / 10), digitChar h1, ':',
        digitChar (m1 / 10), digitChar m1]),
      parseTimeToken? (pyStrip [digitChar (h2 / 10), digitChar h2, ':',
        digitChar (m2 / 10), digitChar m2]) with
    | some a, some b => some (a, b)
    | _, _ => none) = some (⟨h1, m1⟩, ⟨h2, m2⟩)
  rw [pyStrip_hm h1 m1, pyStrip_hm h2 m2]
  rw [parseTimeToken_fmt h1 m1 hh1 hm1, parseTimeToken_fmt h2 m2 hh2 hm2]

/-- Claim C7: availability parsing never propagates an error — a missing
list yields the default 09:00–17:00 window, any first entry on which the
parse attempt fails (no dash, or an unparseable side) also yields the
default, and a successful attempt yields its parsed times; in particular
every well-formed `"HH:MM-HH:MM"` first entry (with in-range fields,
zero-padded as `fmtHM` prints them) parses to its stated start and end
times-of-day, and concrete malformed entries — empty, dash-free,
day-range-decorated, or out-of-range — all fall back to the default. -/
theorem claim_C7_availability_fallback :
    parse_availability [] = (⟨9, 0⟩, ⟨17, 0⟩) ∧
    (∀ (s : String) (rest : List String), parseAvailEntry? s = none →
      parse_availability (s :: rest) = (⟨9, 0⟩, ⟨17, 0⟩)) ∧
    (∀ (s : String) (rest : List String) (a b : PyTime), parseAvailEntry? s = some (a, b) →
      parse_availability (s :: rest) = (a, b)) ∧
    (∀ h1 m1 h2 m2 : Nat, h1 ≤ 23 → m1 ≤ 59 → h2 ≤ 23 → m2 ≤ 59 → ∀ rest : List String,
      parse_availability ((fmtHM ⟨h1, m1⟩ ++ "-" ++ fmtHM ⟨h2, m2⟩) :: rest) =
        (⟨h1, m1⟩, ⟨h2, m2⟩)) ∧
    parse_availability [""] = (⟨9, 0⟩, ⟨17, 0⟩) ∧
    parse_availability ["banana"] = (⟨9, 0⟩, ⟨17, 0⟩) ∧
    parse_availability ["Mon-Fri: 9-5"] = (⟨9, 0⟩, ⟨17, 0⟩) ∧
    parse_availability ["25:00-26:00"] = (⟨9, 0⟩, ⟨17, 0⟩) ∧
    parse_availability ["9-17"] = (⟨9, 0⟩, ⟨17, 0⟩) ∧
    parse_availability ["08:30-16:45"] = (⟨8, 30⟩, ⟨16, 45⟩) := by
  refine ⟨rfl, ?_, ?_, ?_, by decide, by decide, by decide, by decide, by decide, by decide⟩
  · intro s rest h
    show (parseAvailEntry? s).getD (⟨9, 0⟩, ⟨17, 0⟩) = (⟨9, 0⟩, ⟨17, 0⟩)
    rw [h]
    rfl
  · intro s rest a b h
    show (parseAvailEntry? s).getD (⟨9, 0⟩, ⟨17, 0⟩) = (a, b)
    rw [h]
    rfl
  · intro h1 m1 h2 m2 hh1 hm1 hh2 hm2 rest
    show (parseAvailEntry? (fmtHM ⟨h1, m1⟩ ++ "-" ++ fmtHM ⟨h2, m2⟩)).getD
      (⟨9, 0⟩, ⟨17, 0⟩) = (⟨h1, m1⟩, ⟨h2, m2⟩)
    rw [parseAvailEntry_fmt h1 m1 h2 m2 hh1 hm1 hh2 hm2]
    rfl

/-- Witness for C7: a malformed first entry recovers to 09:00–17:00, and
a well-formed `"08:30-16:45"` parses to its stated times. -/
theorem claim_C7_availability_fallback_witness :
    parse_availability ["oops"] = (⟨9, 0⟩, ⟨17, 0⟩) ∧
    parse_availability [fmtHM ⟨8, 30⟩ ++ "-" ++ fmtHM ⟨16, 45⟩] = (⟨8, 30⟩, ⟨16, 45⟩) :=
  ⟨claim_C7_availability_fallback.2.1 "oops" [] (by decide),
   claim_C7_availability_fallback.2.2.2.1 8 30 16 45 (by decide) (by decide) (by decide)
     (by decide) []⟩

/-! ### Claim C8 — mark_complete behaviour and frame -/

theorem mark_complete_none (st : ScheduledTask) (cd : Option PyDate) (now : PyDate)
    (htk : st.task = none) :
    st.mark_complete cd now =
      ({ st with status := "completed" },
       "✓ Completed " ++ sq ++ "Unknown task" ++ sq ++ ".") := by
  obtain ⟨tid, s, e, p, tk, stat, sd⟩ := st
  replace htk : tk = none := htk
  subst htk
  rfl

theorem mark_complete_rec (st : ScheduledTask) (cd : Option PyDate) (now : PyDate)
    (task : Task) (htk : st.task = some task) (hrec : task.is_recurring = true) :
    st.mark_complete cd now =
      ({ st with
          status := "completed",
          task := some { task with next_due_date :=
            task.calculate_next_due_date (cd.getD (st.scheduled_date.getD now)) } },
       "✓ Completed " ++ sq ++ task.name ++ sq ++ ". Next due: " ++
         (match task.calculate_next_due_date (cd.getD (st.scheduled_date.getD now)) with
           | some d => strftimeLong d
           | none => "N/A")) := by
  obtain ⟨tid, s, e, p, tk, stat, sd⟩ := st
  replace htk : tk = some task := htk
  subst htk
  show (if task.is_recurring = true then _ else _) = _
  rw [if_pos hrec]

theorem mark_complete_nonrec (st : ScheduledTask) (cd : Option PyDate) (now : PyDate)
    (task : Task) (htk : st.task = some task) (hrec : task.is_recurring = false) :
    st.mark_complete cd now =
      ({ st with status := "completed" },
       "✓ Completed " ++ sq ++ task.name ++ sq ++ ".") := by
  obtain ⟨tid, s, e, p, tk, stat, sd⟩ := st
  replace htk : tk = some task := htk
  subst htk
  show (if task.is_recurring = true then _ else _) = _
  rw [if_neg (by simp [hrec])]

/-- Claim C8: marking the `i`-th placement complete sets its status to
`completed` and leaves everything else unchanged — the interval, ids and
date of the placement, every other placement, and the schedule's
conflict list, explanation, date and user (none of which are
recomputed); when the attached task is recurring the updated placement
stores the task's computed next due date and the returned message names
that date, otherwise the task is untouched and a simpler completion
message is returned. -/
theorem claim_C8_mark_complete (sched : DailySchedule) (i : Nat) (st : ScheduledTask)
    (cd : Option PyDate) (now : PyDate)
    (h : sched.scheduled_tasks[i]? = some st) :
    (markCompleteAt sched i cd now).1.conflicts = sched.conflicts ∧
    (markCompleteAt sched i cd now).1.explanation = sched.explanation ∧
    (markCompleteAt sched i cd now).1.date = sched.date ∧
    (markCompleteAt sched i cd now).1.user_id = sched.user_id ∧
    (∀ j : Nat, j ≠ i → (markCompleteAt sched i cd now).1.scheduled_tasks[j]? =
      sched.scheduled_tasks[j]?) ∧
    (markCompleteAt sched i cd now).1.scheduled_tasks[i]? =
      some (st.mark_complete cd now).1 ∧
    (markCompleteAt sched i cd now).2 = some (st.mark_complete cd now).2 ∧
    (st.mark_complete cd now).1.status = "completed" ∧
    (st.mark_complete cd now).1.start_time = st.start_time ∧
    (st.mark_complete cd now).1.end_time = st.end_time ∧
    (st.mark_complete cd now).1.task_id = st.task_id ∧
    (st.mark_complete cd now).1.pet_id = st.pet_id ∧
    (st.mark_complete cd now).1.scheduled_date = st.scheduled_date ∧
    (∀ tk : Task, st.task = some tk → tk.is_recurring = true →
      (st.mark_complete cd now).1.task =
        some { tk with next_due_date :=
          tk.calculate_next_due_date (cd.getD (st.scheduled_date.getD now)) } ∧
      (st.mark_complete cd now).2 =
        "✓ Completed " ++ sq ++ tk.name ++ sq ++ ". Next due: " ++
          (match tk.calculate_next_due_date (cd.getD (st.scheduled_date.getD now)) with
            | some nd => strftimeLong nd
            | none => "N/A")) ∧
    (∀ tk : Task, st.task = some tk → tk.is_recurring = false →
      (st.mark_complete cd now).1.task = some tk ∧
      (st.mark_complete cd now).2 = "✓ Completed " ++ sq ++ tk.name ++ sq ++ ".") := by
  have hm : markCompleteAt sched i cd now =
      ({ sched with scheduled_tasks :=
          sched.scheduled_tasks.set i (st.mark_complete cd now).1 },
       some (st.mark_complete cd now).2) := by
    unfold markCompleteAt
    rw [h]
  have hlen : i < sched.scheduled_tasks.length :=
    (List.getElem?_eq_some_iff.mp h).1
  refine ⟨by rw [hm], by rw [hm], by rw [hm], by rw [hm], ?_, ?_, by rw [hm], ?_⟩
  · intro j hj
    rw [hm]
    exact List.getElem?_set_ne (fun hij => hj hij.symm)
  · rw [hm]
    exact List.getElem?_set_self hlen
  · -- status and frame fields of the updated placement, plus the two task cases
    cases htk : st.task with
    | none =>
      rw [mark_complete_none st cd now htk]
      refine ⟨rfl, rfl, rfl, rfl, rfl, rfl, ?_, ?_⟩
      · intro tk htk2 _
        exact Option.noConfusion htk2
      · intro tk htk2 _
        exact Option.noConfusion htk2
    | some task =>
      cases hrec : task.is_recurring with
      | true =>
        rw [mark_complete_rec st cd now task htk hrec]
        refine ⟨rfl, rfl, rfl, rfl, rfl, rfl, ?_, ?_⟩
        · intro tk htk2 _
          obtain rfl := Option.some.inj htk2
          exact ⟨rfl, rfl⟩
        · intro tk htk2 hrec2
          obtain rfl := Option.some.inj htk2
          rw [hrec] at hrec2
          exact Bool.noConfusion hrec2
      | false =>
        rw [mark_complete_nonrec st cd now task htk hrec]
        refine ⟨rfl, rfl, rfl, rfl, rfl, rfl, ?_, ?_⟩
        · intro tk htk2 hrec2
          obtain rfl := Option.some.inj htk2
          rw [hrec] at hrec2
          exact Bool.noConfusion hrec2
        · intro tk htk2 _
          obtain rfl := Option.some.inj htk2
          exact ⟨htk, rfl⟩

/-- A pending placement of a recurring daily feeding task, scheduled for
2026-02-15 (as in the repo's `test_mark_complete_updates_next_due_date`). -/
def demoScheduled : ScheduledTask :=
  { task_id := "t1", start_time := ⟨9, 0⟩, end_time := ⟨9, 10⟩, pet_id := "p1",
    task := some { task_id := "t1", pet_id := "p1", name := "Daily Feed",
                   duration := 10, priority := 3, category := "feeding",
                   is_medication := true, is_recurring := true,
                   recurrence_pattern := "daily" },
    scheduled_date := some ⟨2026, 2, 15⟩ }

/-- A one-entry schedule holding `demoScheduled`. -/
def demoSchedule : DailySchedule :=
  { user_id := "john", date := ⟨2026, 2, 15⟩, scheduled_tasks := [demoScheduled],
    explanation := "E", conflicts := [] }

/-- Witness for C8: completing the recurring placement flips its status,
leaves the schedule's conflicts and explanation untouched, and stores
2026-02-16 as the next due date. -/
theorem claim_C8_mark_complete_witness :
    (markCompleteAt demoSchedule 0 (some ⟨2026, 2, 15⟩) ⟨2026, 2, 15⟩).1.conflicts =
      demoSchedule.conflicts ∧
    (markCompleteAt demoSchedule 0 (some ⟨2026, 2, 15⟩) ⟨2026, 2, 15⟩).1.explanation =
      demoSchedule.explanation ∧
    (demoScheduled.mark_complete (some ⟨2026, 2, 15⟩) ⟨2026, 2, 15⟩).1.status = "completed" ∧
    (demoScheduled.mark_complete (some ⟨2026, 2, 15⟩)
      ⟨2026, 2, 15⟩).1.task.map Task.next_due_date = some (some ⟨2026, 2, 16⟩) := by
  obtain ⟨h1, h2, _, _, _, _, _, h8, _, _, _, _, _, h14, _⟩ :=
    claim_C8_mark_complete demoSchedule 0 demoScheduled (some ⟨2026, 2, 15⟩) ⟨2026, 2, 15⟩
      (by decide)
  refine ⟨h1, h2, h8, ?_⟩
  obtain ⟨ht, _⟩ := h14 _ rfl rfl
  rw [ht]
  decide

/-! ### Claim C9 — persistence round trip -/

/-- A date re-parses from its ISO form (`fromisoformat ∘ isoformat = id`
on the dates `datetime` can hold). -/
theorem fromIso_isoformat (d : PyDate) (hy : d.year ≤ 9999) (hm : d.month ≤ 99)
    (hd : d.day ≤ 99) : fromIso? (isoformat d) = some d := by
  obtain ⟨y, mo, da⟩ := d
  replace hy : y ≤ 9999 := hy
  replace hm : mo ≤ 99 := hm
  replace hd : da ≤ 99 := hd
  unfold isoformat fromIso?
  show (if ('-' : Char) = '-' ∧ ('-' : Char) = '-' ∧
      List.all [digitChar (y / 1000), digitChar (y / 100), digitChar (y / 10), digitChar y,
        digitChar (mo / 10), digitChar mo, digitChar (da / 10), digitChar da]
        isDigitChar = true then
      some (⟨1000 * digitVal (digitChar (y / 1000)) + 100 * digitVal (digitChar (y / 100)) +
          10 * digitVal (digitChar (y / 10)) + digitVal (digitChar y),
        10 * digitVal (digitChar (mo / 10)) + digitVal (digitChar mo),
        10 * digitVal (digitChar (da / 10)) + digitVal (digitChar da)⟩ : PyDate)
    else none) = some (⟨y, mo, da⟩ : PyDate)
  rw [if_pos ⟨rfl, rfl, by simp [digitChar_isDigit]⟩]
  simp only [digitVal_digitChar, Option.some.injEq, PyDate.mk.injEq]
  refine ⟨?_, ?_, ?_⟩ <;> omega

/-- One stored task reloads to the task it was saved from. -/
theorem loadTask?_storeTask (task : Task)
    (hv : ∀ d : PyDate, task.next_due_date = some d →
      d.year ≤ 9999 ∧ d.month ≤ 99 ∧ d.day ≤ 99) :
    loadTask? (storeTask task) = some task := by
  obtain ⟨tid, pid, nm, du, pr, ca, im, pt, ir, rp, rd, nd⟩ := task
  cases nd with
  | none => rfl
  | some d =>
    obtain ⟨h1, h2, h3⟩ := hv d rfl
    show (fromIso? (isoformat d)).map _ = _
    rw [fromIso_isoformat d h1 h2 h3]
    rfl

theorem mapM_loadTask_storeTask (tasks : List Task)
    (hv : ∀ t ∈ tasks, ∀ d : PyDate, t.next_due_date = some d →
      d.year ≤ 9999 ∧ d.month ≤ 99 ∧ d.day ≤ 99) :
    (tasks.map storeTask).mapM loadTask? = some tasks := by
  induction tasks with
  | nil => rfl
  | cons t ts ih =>
    rw [List.map_cons, List.mapM_cons,
      loadTask?_storeTask t (hv t (List.mem_cons_self t ts)),
      ih (fun t' ht' => hv t' (List.mem_cons_of_mem t ht'))]
    rfl

/-- One stored pet reloads to the pet it was saved from. -/
theorem loadPet?_storePet (pet : Pet)
    (hv : ∀ t ∈ pet.tasks, ∀ d : PyDate, t.next_due_date = some d →
      d.year ≤ 9999 ∧ d.month ≤ 99 ∧ d.day ≤ 99) :
    loadPet? (storePet pet) = some pet := by
  obtain ⟨pid, nm, sp, ag, hi, tp, up, tasks⟩ := pet
  unfold loadPet? storePet
  show ((tasks.map storeTask).mapM loadTask?).bind _ = _
  rw [mapM_loadTask_storeTask tasks hv]
  rfl

theorem mapM_loadPet_storePet (pets : List Pet)
    (hv : ∀ pet ∈ pets, ∀ t ∈ pet.tasks, ∀ d : PyDate, t.next_due_date = some d →
      d.year ≤ 9999 ∧ d.month ≤ 99 ∧ d.day ≤ 99) :
    (pets.map storePet).mapM loadPet? = some pets := by
  induction pets with
  | nil => rfl
  | cons p ps ih =>
    rw [List.map_cons, List.mapM_cons,
      loadPet?_storePet p (hv p (List.mem_cons_self p ps)),
      ih (fun p' hp' => hv p' (List.mem_cons_of_mem p hp'))]
    rfl

/-- Claim C9: saving a user (with nested pets and tasks) and loading the
result reproduces the user exactly — every task field, including the
recurrence flag, pattern, weekday set and any stored next-due-date,
round-trips (stored dates must be representable by `datetime`:
year ≤ 9999 with two-digit month and day). -/
theorem claim_C9_round_trip (u : User)
    (hv : ∀ pet ∈ u.pets, ∀ t ∈ pet.tasks, ∀ d : PyDate, t.next_due_date = some d →
      d.year ≤ 9999 ∧ d.month ≤ 99 ∧ d.day ≤ 99) :
    load_user (save_user u) = some u := by
  obtain ⟨un, pw, av, prefs, pets⟩ := u
  unfold save_user load_user
  show ((pets.map storePet).mapM loadPet?).bind _ = _
  rw [mapM_loadPet_storePet pets hv]
  rfl

/-- Witness for C9: the demo user, with a stored next-due-date added to
its medication task, survives the save/load round trip. -/
theorem claim_C9_round_trip_witness :
    load_user (save_user
      { username := "john", password := "pass", availability := ["9-17"],
        preferences := [("tone", "friendly")],
        pets := [{ pet_id := "p1", name := "Buddy", species := "Dog", age := 2,
                   health_info := "healthy",
                   tasks := [{ task_id := "med1", pet_id := "p1", name := "Medication",
                               duration := 5, priority := 5, category := "medication",
                               is_medication := true, is_recurring := true,
                               recurrence_pattern := "weekly", recurrence_days := [0, 2, 4],
                               next_due_date := some ⟨2026, 2, 16⟩ }] }] }) =
    some
      { username := "john", password := "pass", availability := ["9-17"],
        preferences := [("tone", "friendly")],
        pets := [{ pet_id := "p1", name := "Buddy", species := "Dog", age := 2,
                   health_info := "healthy",
                   tasks := [{ task_id := "med1", pet_id := "p1", name := "Medication",
                               duration := 5, priority := 5, category := "medication",
                               is_medication := true, is_recurring := true,
                               recurrence_pattern := "weekly", recurrence_days := [0, 2, 4],
                               next_due_date := some ⟨2026, 2, 16⟩ }] }] } :=
  claim_C9_round_trip _ (by decide)

end PawPal
